import Mathlib

/-!
Shallow embedding of the quality-refinement engine of this repository:
`validation_agent/json_parser.py`, `validation_agent/patch_applier.py`,
`validation_agent/claude_validator.py` and `validation_agent/rlhf_system.py`.

Modelling conventions:
* Python strings are Lean `String` / `List Char` (whitespace sets are the
  ASCII whitespace characters that all inputs considered here use);
* Python floats are exact rationals `ℚ` (no property below depends on
  binary rounding; the thresholds 0.5/0.7/0.95/7.0 and all scores are
  compared far from representation boundaries);
* Python exceptions are `Except PyErr`;
* `re.sub` replacement strings are compiled as Python replacement
  templates (`compileRepl`): escapes are interpreted and a bad escape or
  group reference raises `re.error`; `\g<name>` group names are modeled
  for ASCII-digit names (the signed or underscore-grouped numerals that
  Python's `int()` would also accept are not modeled — no input below
  uses them);
* the external critic / fixer / generator HTTP services are call-indexed
  oracle functions passed to the refinement loops as parameters.
-/

namespace AstroRabbit

/-- Exception kinds raised by the embedded Python code (`reError` is
`re.error`, raised by `re.sub` when the replacement template is bad). -/
inductive PyErr where
  | typeError
  | attributeError
  | reError
  deriving DecidableEq, Repr

/-- Python `str.isspace` / `\s` character class (ASCII part, used by
`str.strip()`, `str.split()` and the `re` patterns in the source). -/
def isPySpace (c : Char) : Bool :=
  c = ' ' || c = '\t' || c = '\n' || c = '\r' || c = '\x0b' || c = '\x0c'

/-- Strip characters satisfying `p` from both ends of a list
(Python `str.strip(chars)`). -/
def stripOnList (p : Char → Bool) (l : List Char) : List Char :=
  ((l.dropWhile p).reverse.dropWhile p).reverse

/-- Python `str.strip()` (no argument: whitespace). -/
def pyStrip (s : String) : String :=
  String.mk (stripOnList isPySpace s.data)

/-- Python `str.rstrip()`. -/
def pyRstrip (s : String) : String :=
  String.mk (s.data.reverse.dropWhile isPySpace).reverse

/-- Python `str.lower()` (per-character lowering). -/
def pyLower (s : String) : String :=
  String.mk (s.data.map Char.toLower)

/-- One step of Python `str.replace`: non-overlapping, leftmost-first.
`fuel` bounds the recursion; `fuel = s.length` always suffices because a
successful (non-empty) match consumes at least one character. -/
def pyReplaceAux (find repl : List Char) : Nat → List Char → List Char
  | _, [] => if find.isEmpty then repl else []
  | 0, s => s
  | fuel + 1, c :: cs =>
    if find.isEmpty then
      repl ++ c :: pyReplaceAux find repl fuel cs
    else if find.isPrefixOf (c :: cs) then
      repl ++ pyReplaceAux find repl fuel ((c :: cs).drop find.length)
    else
      c :: pyReplaceAux find repl fuel cs

/-- Python `str.replace(find, repl)` (all non-overlapping occurrences,
left to right; an empty pattern is inserted between every character). -/
def pyReplace (s find repl : String) : String :=
  String.mk (pyReplaceAux find.data repl.data s.data.length s.data)

/-- Python `needle in haystack` on strings (substring test). -/
def pyInfixList (needle : List Char) : List Char → Bool
  | [] => needle.isEmpty
  | c :: cs => needle.isPrefixOf (c :: cs) || pyInfixList needle cs

/-- Python `find in text` for strings. -/
def pyInStr (needle hay : String) : Bool :=
  pyInfixList needle.data hay.data

/-- Word accumulator for `str.split()`. -/
def splitWsGo : List Char → List Char → List (List Char)
  | [], acc => if acc.isEmpty then [] else [acc.reverse]
  | c :: cs, acc =>
    if isPySpace c then
      if acc.isEmpty then splitWsGo cs [] else acc.reverse :: splitWsGo cs []
    else splitWsGo cs (c :: acc)

/-- Python `text.split()` (split on whitespace runs, no empty parts). -/
def pySplitWs (s : String) : List String :=
  (splitWsGo s.data []).map String.mk

/-! ## JSON values (the result type of Python `json.loads`) -/

/-- Parsed JSON values.  Python objects are association lists in insertion
order with unique keys (later duplicates overwrite in place, as for a
Python `dict`). -/
inductive JValue where
  | null
  | bool (b : Bool)
  | num (q : ℚ)
  | str (s : String)
  | arr (elems : List JValue)
  | obj (entries : List (String × JValue))

mutual

/-- Decidable equality of JSON values (manual, since `deriving` does not
handle the nested `List` occurrences). -/
def jDecEq : (a b : JValue) → Decidable (a = b)
  | .null, .null => isTrue rfl
  | .bool x, .bool y =>
    if h : x = y then isTrue (by rw [h]) else isFalse (by intro hc; cases hc; exact h rfl)
  | .num x, .num y =>
    if h : x = y then isTrue (by rw [h]) else isFalse (by intro hc; cases hc; exact h rfl)
  | .str x, .str y =>
    if h : x = y then isTrue (by rw [h]) else isFalse (by intro hc; cases hc; exact h rfl)
  | .arr xs, .arr ys =>
    match jDecEqL xs ys with
    | isTrue h => isTrue (by rw [h])
    | isFalse h => isFalse (by intro hc; cases hc; exact h rfl)
  | .obj xs, .obj ys =>
    match jDecEqO xs ys with
    | isTrue h => isTrue (by rw [h])
    | isFalse h => isFalse (by intro hc; cases hc; exact h rfl)
  | .null, .bool _ | .null, .num _ | .null, .str _ | .null, .arr _ | .null, .obj _ =>
    isFalse (by intro hc; cases hc)
  | .bool _, .null | .bool _, .num _ | .bool _, .str _ | .bool _, .arr _ | .bool _, .obj _ =>
    isFalse (by intro hc; cases hc)
  | .num _, .null | .num _, .bool _ | .num _, .str _ | .num _, .arr _ | .num _, .obj _ =>
    isFalse (by intro hc; cases hc)
  | .str _, .null | .str _, .bool _ | .str _, .num _ | .str _, .arr _ | .str _, .obj _ =>
    isFalse (by intro hc; cases hc)
  | .arr _, .null | .arr _, .bool _ | .arr _, .num _ | .arr _, .str _ | .arr _, .obj _ =>
    isFalse (by intro hc; cases hc)
  | .obj _, .null | .obj _, .bool _ | .obj _, .num _ | .obj _, .str _ | .obj _, .arr _ =>
    isFalse (by intro hc; cases hc)

/-- Decidable equality of JSON value lists. -/
def jDecEqL : (a b : List JValue) → Decidable (a = b)
  | [], [] => isTrue rfl
  | [], _ :: _ => isFalse (by intro hc; cases hc)
  | _ :: _, [] => isFalse (by intro hc; cases hc)
  | x :: xs, y :: ys =>
    match jDecEq x y with
    | isFalse h => isFalse (by intro hc; injection hc with h1 _; exact h h1)
    | isTrue h1 =>
      match jDecEqL xs ys with
      | isTrue h2 => isTrue (by rw [h1, h2])
      | isFalse h2 => isFalse (by intro hc; injection hc with _ hs; exact h2 hs)

/-- Decidable equality of JSON object entry lists. -/
def jDecEqO : (a b : List (String × JValue)) → Decidable (a = b)
  | [], [] => isTrue rfl
  | [], _ :: _ => isFalse (by intro hc; cases hc)
  | _ :: _, [] => isFalse (by intro hc; cases hc)
  | (k, v) :: xs, (k2, v2) :: ys =>
    if hk : k = k2 then
      match jDecEq v v2 with
      | isFalse h => isFalse (by intro hc; injection hc with h1 _; cases h1; exact h rfl)
      | isTrue hv =>
        match jDecEqO xs ys with
        | isTrue h2 => isTrue (by rw [hk, hv, h2])
        | isFalse h2 => isFalse (by intro hc; injection hc with _ hs; exact h2 hs)
    else
      isFalse (by intro hc; injection hc with h1 _; cases h1; exact hk rfl)

end

instance : DecidableEq JValue := jDecEq

instance {ε α : Type} [DecidableEq ε] [DecidableEq α] : DecidableEq (Except ε α) :=
  fun a b =>
    match a, b with
    | .ok x, .ok y =>
      if h : x = y then isTrue (by rw [h]) else isFalse (by intro hc; cases hc; exact h rfl)
    | .error x, .error y =>
      if h : x = y then isTrue (by rw [h]) else isFalse (by intro hc; cases hc; exact h rfl)
    | .ok _, .error _ => isFalse (by intro hc; cases hc)
    | .error _, .ok _ => isFalse (by intro hc; cases hc)

/-- Python truthiness of a JSON-shaped value. -/
def jTruthy : JValue → Bool
  | .null => false
  | .bool b => b
  | .num q => q ≠ 0
  | .str s => s ≠ ""
  | .arr xs => !xs.isEmpty
  | .obj kvs => !kvs.isEmpty

/-- Key lookup in an object's entry list (keys are unique by
construction). -/
def objGet (kvs : List (String × JValue)) (k : String) : Option JValue :=
  match kvs with
  | [] => none
  | (k1, v) :: rest => if k1 = k then some v else objGet rest k

/-- Embeds `d[k] = v` on a Python dict: overwrite in place if the key exists,
else append (insertion order preserved). -/
def insertReplace (kvs : List (String × JValue)) (k : String) (v : JValue) :
    List (String × JValue) :=
  if kvs.any (fun kv => kv.1 = k) then
    kvs.map (fun kv => if kv.1 = k then (k, v) else kv)
  else
    kvs ++ [(k, v)]

/-! ## `json.loads`

A recursive-descent parser for the JSON grammar accepted by Python's
`json` module (strict mode).  `NaN`/`Infinity` literals and lone
surrogates — accepted by Python but never produced by the pipeline under
study — are not modelled. -/

/-- JSON inter-token whitespace (the `json` module's set). -/
def isJsonWs (c : Char) : Bool :=
  c = ' ' || c = '\t' || c = '\n' || c = '\r'

/-- Drop JSON whitespace. -/
def skipJsonWs (l : List Char) : List Char :=
  l.dropWhile isJsonWs

/-- Digits of a decimal numeral to a natural number. -/
def digitsToNat (ds : List Char) : Nat :=
  ds.foldl (fun acc c => 10 * acc + (c.toNat - '0'.toNat)) 0

/-- The rational `m * 10 ^ e` (mantissa and decimal exponent), built with
`mkRat` so that it evaluates by kernel reduction. -/
def decimalToRat (m : Nat) (e : Int) : ℚ :=
  if 0 ≤ e then mkRat (m * 10 ^ e.toNat) 1 else mkRat m (10 ^ (-e).toNat)

/-- Parse one JSON number (strict grammar: `-? int frac? exp?`). -/
def parseJNumber (l : List Char) : Option (ℚ × List Char) :=
  let (neg, l1) :=
    match l with
    | '-' :: rest => (true, rest)
    | _ => (false, l)
  let intDigits := l1.takeWhile Char.isDigit
  let l2 := l1.drop intDigits.length
  if intDigits.isEmpty then none
  else if intDigits.length > 1 && intDigits.headD '0' = '0' then none
  else
    let (fracDigits, l3, fracOk) :=
      match l2 with
      | '.' :: rest =>
        let fd := rest.takeWhile Char.isDigit
        -- a '.' not followed by digits is a syntax error in strict JSON
        if fd.isEmpty then (([] : List Char), l2, false)
        else (fd, rest.drop fd.length, true)
      | _ => ([], l2, true)
    if !fracOk then none
    else
      let (epart, l4, expOk) :=
        match l3 with
        | 'e' :: rest | 'E' :: rest =>
          let (esign, r1) :=
            match rest with
            | '+' :: r => ((1 : Int), r)
            | '-' :: r => ((-1 : Int), r)
            | _ => ((1 : Int), rest)
          let ed := r1.takeWhile Char.isDigit
          if ed.isEmpty then ((0 : Int), l3, false)
          else (esign * (digitsToNat ed : Int), r1.drop ed.length, true)
        | _ => (0, l3, true)
      if !expOk then none
      else
        let mantissa := digitsToNat (intDigits ++ fracDigits)
        let q := decimalToRat mantissa (epart - fracDigits.length)
        some (if neg then -q else q, l4)

/-- Value of a hexadecimal digit, if any. -/
def hexVal (c : Char) : Option Nat :=
  if '0' ≤ c ∧ c ≤ '9' then some (c.toNat - '0'.toNat)
  else if 'a' ≤ c ∧ c ≤ 'f' then some (c.toNat - 'a'.toNat + 10)
  else if 'A' ≤ c ∧ c ≤ 'F' then some (c.toNat - 'A'.toNat + 10)
  else none

/-- Decode `\uXXXX` (four hex digits). -/
def hex4 (a b c d : Char) : Option Nat := do
  let va ← hexVal a
  let vb ← hexVal b
  let vc ← hexVal c
  let vd ← hexVal d
  pure (((va * 16 + vb) * 16 + vc) * 16 + vd)

/-- Parse the body of a JSON string (the opening quote already consumed),
returning the decoded string and the remaining input.  Surrogate pairs in
`\u` escapes are combined. -/
def parseJStringBody : List Char → Option (String × List Char)
  | [] => none
  | '"' :: rest => some ("", rest)
  | '\\' :: 'u' :: a :: b :: c :: d :: rest =>
    match hex4 a b c d with
    | none => none
    | some hi =>
      if 0xD800 ≤ hi ∧ hi < 0xDC00 then
        match rest with
        | '\\' :: 'u' :: e :: f :: g :: h :: rest2 =>
          match hex4 e f g h with
          | some lo =>
            if 0xDC00 ≤ lo ∧ lo < 0xE000 then
              let code := 0x10000 + (hi - 0xD800) * 0x400 + (lo - 0xDC00)
              (parseJStringBody rest2).map
                (fun p => (String.mk (Char.ofNat code :: p.1.data), p.2))
            else none
          | none => none
        | _ => none
      else
        (parseJStringBody rest).map
          (fun p => (String.mk (Char.ofNat hi :: p.1.data), p.2))
  | '\\' :: e :: rest =>
    let dec : Option Char :=
      if e = '"' then some '"'
      else if e = '\\' then some '\\'
      else if e = '/' then some '/'
      else if e = 'b' then some '\x08'
      else if e = 'f' then some '\x0c'
      else if e = 'n' then some '\n'
      else if e = 'r' then some '\r'
      else if e = 't' then some '\t'
      else none
    match dec with
    | none => none
    | some ch => (parseJStringBody rest).map (fun p => (String.mk (ch :: p.1.data), p.2))
  | c :: rest =>
    if c.toNat < 0x20 then none
    else (parseJStringBody rest).map (fun p => (String.mk (c :: p.1.data), p.2))

mutual

/-- Parse one JSON value (fuel-bounded; `2 * length + 4` fuel always
suffices since every two recursive steps consume input). -/
def parseJVal : Nat → List Char → Option (JValue × List Char)
  | 0, _ => none
  | fuel + 1, l =>
    match skipJsonWs l with
    | '{' :: rest =>
      (match skipJsonWs rest with
       | '}' :: r2 => some (.obj [], r2)
       | r2 => parseJMembers fuel r2 [])
    | '[' :: rest =>
      (match skipJsonWs rest with
       | ']' :: r2 => some (.arr [], r2)
       | r2 => parseJElems fuel r2 [])
    | '"' :: rest => (parseJStringBody rest).map (fun p => (.str p.1, p.2))
    | 't' :: 'r' :: 'u' :: 'e' :: r => some (.bool true, r)
    | 'f' :: 'a' :: 'l' :: 's' :: 'e' :: r => some (.bool false, r)
    | 'n' :: 'u' :: 'l' :: 'l' :: r => some (.null, r)
    | l1 => (parseJNumber l1).map (fun p => (.num p.1, p.2))

/-- Parse the members of a JSON object after `{` (at least one member). -/
def parseJMembers : Nat → List Char → List (String × JValue) →
    Option (JValue × List Char)
  | 0, _, _ => none
  | fuel + 1, l, acc =>
    match skipJsonWs l with
    | '"' :: rest =>
      (match parseJStringBody rest with
       | none => none
       | some (k, r1) =>
         match skipJsonWs r1 with
         | ':' :: r2 =>
           (match parseJVal fuel r2 with
            | none => none
            | some (v, r3) =>
              let acc2 := insertReplace acc k v
              match skipJsonWs r3 with
              | ',' :: r4 => parseJMembers fuel r4 acc2
              | '}' :: r4 => some (.obj acc2, r4)
              | _ => none)
         | _ => none)
    | _ => none

/-- Parse the elements of a JSON array after `[` (at least one element). -/
def parseJElems : Nat → List Char → List JValue → Option (JValue × List Char)
  | 0, _, _ => none
  | fuel + 1, l, acc =>
    match parseJVal fuel l with
    | none => none
    | some (v, r) =>
      match skipJsonWs r with
      | ',' :: r2 => parseJElems fuel r2 (acc ++ [v])
      | ']' :: r2 => some (.arr (acc ++ [v]), r2)
      | _ => none

end

/-- Python `json.loads`: parse a complete document, allowing surrounding
whitespace, rejecting trailing garbage.  `none` models a raised
`JSONDecodeError`. -/
def jsonLoads (s : String) : Option JValue :=
  match parseJVal (2 * s.length + 4) s.data with
  | some (v, rest) => if (skipJsonWs rest).isEmpty then some v else none
  | none => none

/-! ## `validation_agent/json_parser.py` -/

/-- Scan from the first `{` (inclusive), counting brace depth; return the
slice up to the matching `}` (the source's loop in `_extract_json_block`,
lines 72–81). -/
def braceBlockGo : List Char → Nat → List Char → Option (List Char)
  | [], _, _ => none
  | c :: cs, depth, acc =>
    if c = '{' then braceBlockGo cs (depth + 1) (c :: acc)
    else if c = '}' then
      if depth = 1 then some (c :: acc).reverse
      else braceBlockGo cs (depth - 1) (c :: acc)
    else braceBlockGo cs depth (c :: acc)

/-- The balanced-brace candidate block, if the text has one. -/
def braceBlock (l : List Char) : Option (List Char) :=
  match l.dropWhile (fun c => c ≠ '{') with
  | [] => none
  | l1 => braceBlockGo l1 0 []

/-- Length of the fence-marker match of
`re.sub(r"^```(json)?|```$", ..., flags=re.MULTILINE)` at the cursor
position, if the pattern matches there.  `atStart` says whether the
cursor is at a line start (`^`). -/
def fenceMatchLen (atStart : Bool) (l : List Char) : Option Nat :=
  if l.take 3 = ['`', '`', '`'] then
    if atStart then
      if (l.drop 3).take 4 = ['j', 's', 'o', 'n'] then some 7 else some 3
    else
      match l.drop 3 with
      | [] => some 3
      | '\n' :: _ => some 3
      | _ => none
  else none

/-- Left-to-right, non-overlapping removal of fence markers.  Removed
chunks contain no newline, so the position after a match is never a line
start. -/
def stripFencesGo : Nat → Bool → List Char → List Char
  | 0, _, l => l
  | _ + 1, _, [] => []
  | fuel + 1, atStart, c :: cs =>
    match fenceMatchLen atStart (c :: cs) with
    | some n => stripFencesGo fuel false ((c :: cs).drop n)
    | none => c :: stripFencesGo fuel (c = '\n') cs

/-- Embeds `re.sub(r"^```(json)?|```$", "", text, flags=re.MULTILINE)`. -/
def stripFences (l : List Char) : List Char :=
  stripFencesGo l.length true l

/-- Embeds `re.search(r"\{[\s\S]*\}", code)`: greedy — from the first `{` to the
last `}` after it, if any. -/
def greedyBrace (l : List Char) : Option (List Char) :=
  match l.dropWhile (fun c => c ≠ '{') with
  | [] => none
  | suffix =>
    match suffix.reverse.dropWhile (fun c => c ≠ '}') with
    | [] => none
    | revSuffix => some revSuffix.reverse

/-- Embeds `_extract_json_block` — balanced-brace slice, else fence-stripped
greedy regex fallback, else the (stripped) text itself. -/
def _extract_json_block (text : String) : String :=
  let t := stripOnList isPySpace text.data
  match braceBlock t with
  | some b => String.mk b
  | none =>
    let code := stripOnList isPySpace (stripFences t)
    match greedyBrace code with
    | some b => String.mk b
    | none => String.mk t

/-- Embeds `re.sub(r"(\d),(\d)", r"\1.\2", s)`: each digit-comma-digit triple
becomes digit-dot-digit, continuing after the consumed match. -/
def digitCommaSubGo : Nat → List Char → List Char
  | 0, l => l
  | _ + 1, [] => []
  | fuel + 1, a :: rest =>
    match rest with
    | ',' :: b :: rest2 =>
      if a.isDigit ∧ b.isDigit then a :: '.' :: b :: digitCommaSubGo fuel rest2
      else a :: digitCommaSubGo fuel rest
    | _ => a :: digitCommaSubGo fuel rest

/-- Match of `r'"score"\s*:\s*"([^"]+)"'` at the cursor; on success return
the replacement text (`"score": "<first comma part, stripped>"`) and the
input after the match. -/
def scoreFieldMatchAt (l : List Char) : Option (List Char × List Char) :=
  if ("\"score\"".data).isPrefixOf l then
    match (l.drop 7).dropWhile isPySpace with
    | ':' :: r2 =>
      (match r2.dropWhile isPySpace with
       | '"' :: r4 =>
         let content := r4.takeWhile (fun c => c ≠ '"')
         if content.isEmpty then none
         else
           (match r4.drop content.length with
            | '"' :: rest =>
              let firstPart := content.takeWhile (fun c => c ≠ ',')
              let cleaned := stripOnList isPySpace firstPart
              some ("\"score\": \"".data ++ cleaned ++ ['"'], rest)
            | _ => none)
       | _ => none)
    | _ => none
  else none

/-- All-occurrence substitution for the `"score"` truncation repair. -/
def scoreFieldSubGo : Nat → List Char → List Char
  | 0, l => l
  | _ + 1, [] => []
  | fuel + 1, c :: cs =>
    match scoreFieldMatchAt (c :: cs) with
    | some (repl, rest) => repl ++ scoreFieldSubGo fuel rest
    | none => c :: scoreFieldSubGo fuel cs

/-- The one bounded repair attempt of `parse_validation_response`
(lines 114–122): newlines to spaces, comma decimals to dots, doubled
commas collapsed, runaway `"score"` string values truncated. -/
def repairCandidate (candidate : String) : String :=
  let r1 := pyReplace candidate "\n" " "
  let r2 := String.mk (digitCommaSubGo r1.data.length r1.data)
  let r3 := pyReplace r2 ",," ","
  String.mk (scoreFieldSubGo r3.data.length r3.data)

/-- Python `float(s)` on a decimal literal (sign, digits, optional
fraction, optional exponent; surrounding whitespace allowed).  The
`inf`/`nan`/underscore literal forms — never produced by this pipeline —
are not modelled. -/
def pyFloatOfString (s : String) : Option ℚ :=
  let l := stripOnList isPySpace s.data
  let (neg, l1) :=
    match l with
    | '-' :: r => (true, r)
    | '+' :: r => (false, r)
    | _ => (false, l)
  let intD := l1.takeWhile Char.isDigit
  let l2 := l1.drop intD.length
  let (fracD, l3) :=
    match l2 with
    | '.' :: r => (r.takeWhile Char.isDigit, r.drop (r.takeWhile Char.isDigit).length)
    | _ => ([], l2)
  if intD.isEmpty ∧ fracD.isEmpty then none
  else
    let (e, l4, eOk) :=
      match l3 with
      | 'e' :: r | 'E' :: r =>
        let (esign, r1) :=
          match r with
          | '+' :: rr => ((1 : Int), rr)
          | '-' :: rr => ((-1 : Int), rr)
          | _ => ((1 : Int), r)
        let ed := r1.takeWhile Char.isDigit
        if ed.isEmpty then ((0 : Int), l3, false)
        else (esign * (digitsToNat ed : Int), r1.drop ed.length, true)
      | _ => (0, l3, true)
    if !eOk then none
    else if !l4.isEmpty then none
    else
      let q := decimalToRat (digitsToNat (intD ++ fracD)) (e - fracD.length)
      some (if neg then -q else q)

/-- Embeds `_to_float(val, default=0.0)`: numbers (and booleans, which satisfy
`isinstance(val, int)` in Python) pass through; strings are stripped of
whitespace and quote characters and parsed; everything else gives the
default. -/
def _to_float (val : JValue) (default : ℚ) : ℚ :=
  match val with
  | .num q => q
  | .bool b => if b then 1 else 0
  | .str s =>
    let cand := stripOnList (fun c => c = Char.ofNat 39)
      (stripOnList (fun c => c = '"') (stripOnList isPySpace s.data))
    match pyFloatOfString (String.mk cand) with
    | some q => q
    | none => default
  | _ => default

/-- The declared numeric fields. -/
def _NUMBER_FIELDS : List String :=
  ["score", "structure", "content", "language", "formatting"]

/-- The numeric-field coercion loop on a dict's entries. -/
def coerceFields (kvs : List (String × JValue)) : List (String × JValue) :=
  _NUMBER_FIELDS.foldl
    (fun acc k =>
      match objGet acc k with
      | some v => insertReplace acc k (.num (_to_float v 0))
      | none => acc)
    kvs

/-- Embeds `_coerce_numbers(d)`: on a dict, coerce the declared numeric fields.
On any other parsed value the Python loop raises: `k in d` is a
`TypeError` for numbers/booleans/`None`; for strings `k in d` is a
substring test and a hit raises `TypeError` on item assignment; for lists
`k in d` is membership and a hit raises `TypeError` on item assignment;
a miss falls through (the caller then raises on `.setdefault`). -/
def _coerce_numbers (d : JValue) : Except PyErr JValue :=
  match d with
  | .obj kvs => .ok (.obj (coerceFields kvs))
  | .str s =>
    if _NUMBER_FIELDS.any (fun k => pyInStr k s) then .error .typeError
    else .ok (.str s)
  | .arr xs =>
    if _NUMBER_FIELDS.any (fun k => xs.any (fun v => v = .str k)) then .error .typeError
    else .ok (.arr xs)
  | _ => .error .typeError

/-- The synthesized default structure used when both parse attempts fail
(lines 131–138). -/
def defaultReport : JValue :=
  .obj
    [("score", .num 5), ("structure", .num 5), ("content", .num 5), ("language", .num 5),
     ("issues", .arr [.str "Ошибка парсинга ответа валидатора"]),
     ("suggestions", .arr [.str "Проверьте корректность промпта"])]

/-- Python `d.setdefault(k, v)` (ignoring the returned value); raises
`AttributeError` on non-dicts. -/
def pySetdefault (d : JValue) (k : String) (v : JValue) : Except PyErr JValue :=
  match d with
  | .obj kvs =>
    if kvs.any (fun kv => kv.1 = k) then .ok (.obj kvs)
    else .ok (.obj (kvs ++ [(k, v)]))
  | _ => .error .attributeError

/-- Embeds `parse_validation_response(content)`: clean, extract a candidate
block, strict parse, one repaired re-parse, default structure on double
failure; then numeric coercion, (logged-only) schema validation, and
defaulting of the `issues`/`suggestions` arrays. -/
def parse_validation_response (content : String) : Except PyErr JValue :=
  let clean := pyReplace (pyReplace content "\r" " ") "\t" " "
  let candidate := _extract_json_block clean
  let data : JValue :=
    match jsonLoads candidate with
    | some v => v
    | none =>
      match jsonLoads (repairCandidate candidate) with
      | some v => v
      | none => defaultReport
  match _coerce_numbers data with
  | .error e => .error e
  | .ok d1 =>
    match pySetdefault d1 "issues" (.arr []) with
    | .error e => .error e
    | .ok d2 => pySetdefault d2 "suggestions" (.arr [])

/-! ## `validation_agent/patch_applier.py`

The section patterns are `(?m)^\s*{re.escape(title)}\s*$` (in
`find_section`) and `(?ms)^\s*{re.escape(title)}\s*$.*?(?=^\S|\Z)` (in
the substitutions).  `re.escape` makes the title a literal.  The model
implements the backtracking order of the `re` engine: leftmost match
start (`^` restricts starts to line starts), greedy `\s*` before the
title, greedy `\s*` before the multiline `$`, then lazy `.*?` up to the
first position satisfying the lookahead (`^` followed by a non-space
character, or absolute end). -/

/-- Is position `i` a line start (`^` under `re.MULTILINE`)? -/
def isLineStart (s : List Char) (i : Nat) : Bool :=
  i = 0 ||
    (match s.get? (i - 1) with
     | some c => c = '\n'
     | none => false)

/-- Does `$` (under `re.MULTILINE`) match at position `i`? -/
def isDollarPos (s : List Char) (i : Nat) : Bool :=
  i = s.length ||
    (match s.get? i with
     | some c => c = '\n'
     | none => false)

/-- End of the whitespace run starting at `i`. -/
def wsRunEnd (s : List Char) (i : Nat) : Nat :=
  i + ((s.drop i).takeWhile isPySpace).length

/-- Does the literal `t` occur at position `i` of `s`? -/
def prefixAt (t s : List Char) (i : Nat) : Bool :=
  t.isPrefixOf (s.drop i)

/-- Try `f` on `hi, hi-1, …` for `count` steps (greedy backtracking). -/
def firstDescGo (f : Nat → Option α) : Nat → Nat → Option α
  | 0, _ => none
  | count + 1, hi =>
    match f hi with
    | some a => some a
    | none => firstDescGo f count (hi - 1)

/-- Try `f` on `i, i+1, …` for `count` steps (lazy matching). -/
def firstAscGo (f : Nat → Option α) : Nat → Nat → Option α
  | 0, _ => none
  | count + 1, i =>
    match f i with
    | some a => some a
    | none => firstAscGo f count (i + 1)

/-- Attempt the section pattern at line start `i`; return the match end. -/
def sectionMatchEndAt (s T : List Char) (i : Nat) : Option Nat :=
  let n := s.length
  let maxJ := wsRunEnd s i
  firstDescGo
    (fun j =>
      if prefixAt T s j then
        let a := j + T.length
        let maxK := wsRunEnd s a
        match firstDescGo (fun k => if isDollarPos s k then some k else none)
            (maxK - a + 1) maxK with
        | some k =>
          firstAscGo
            (fun e =>
              if e = n then some e
              else if isLineStart s e &&
                  (match s.get? e with
                   | some c => !isPySpace c
                   | none => false) then some e
              else none)
            (n - k + 1) k
        | none => none
      else none)
    (maxJ - i + 1) maxJ

/-- Leftmost match of the section pattern with start position `≥ pos`:
`(start, end)`. -/
def sectionSearchFrom (s T : List Char) (pos : Nat) : Option (Nat × Nat) :=
  firstAscGo
    (fun i =>
      if isLineStart s i then
        match sectionMatchEndAt s T i with
        | some e => some (i, e)
        | none => none
      else none)
    (s.length + 1 - pos) pos

/-- Embeds `find_section(title) != -1`: does `(?m)^\s*title\s*$` match?  (The
`(?ms)` pattern matches exactly when the `(?m)` one does, since its lazy
tail can always reach `\Z`.) -/
def findSectionB (title : String) (text : String) : Bool :=
  (sectionSearchFrom text.data title.data 0).isSome

/-- A compiled `re.sub` replacement-template item: a literal character,
or a reference to group 0 (the whole match).  Both section patterns in
the source have zero capturing groups, so group 0 is the only group a
template can reference without raising `re.error`. -/
inductive ReplTok where
  | lit (c : Char)
  | grp0
  deriving DecidableEq, Repr

/-- Known single-character template escapes (`sre_parse.ESCAPES`). -/
def escLit (c : Char) : Option Char :=
  if c = 'a' then some (Char.ofNat 7)
  else if c = 'b' then some (Char.ofNat 8)
  else if c = 'f' then some (Char.ofNat 12)
  else if c = 'n' then some '\n'
  else if c = 'r' then some '\r'
  else if c = 't' then some '\t'
  else if c = 'v' then some (Char.ofNat 11)
  else if c = '\\' then some '\\'
  else none

/-- Octal-digit test. -/
def octD (c : Char) : Bool := '0' ≤ c && c ≤ '7'

/-- Value of a decimal (or octal) digit character. -/
def octv (c : Char) : Nat := c.toNat - 48

/-- Prepend a token to a template-compilation result. -/
def consTok (tk : ReplTok) : Except PyErr (List ReplTok) → Except PyErr (List ReplTok)
  | .error e => .error e
  | .ok toks => .ok (tk :: toks)

/-- Embeds `re._parser.parse_template` for a pattern with zero capturing
groups and no named groups (the section patterns are of this form): a
backslash followed by a known escape letter is converted; `\0` plus up
to two octal digits, and `\ddd` with three octal digits of value at
most `0o377`, are octal character escapes; `\g<0…0>` references group 0
(ASCII-digit names, see the module conventions); any other
`\digit…` sequence is an invalid group reference, any other backslash
plus ASCII letter is a bad escape, and a malformed `\g<…>` is an error —
all raising `re.error` — while a backslash before a non-letter is kept
verbatim (both characters).  Python compiles the template before
scanning for matches, so a bad template raises even when the pattern
does not match.  Each step consumes at least one character, so
`fuel = length + 1` suffices. -/
def compileReplGo : Nat → List Char → Except PyErr (List ReplTok)
  | 0, _ => .error .reError
  | _ + 1, [] => .ok []
  | fuel + 1, c :: rest =>
    if c = '\\' then
      match rest with
      | [] => .error .reError
      | d :: rest2 =>
        if d = 'g' then
          match rest2 with
          | b :: rest3 =>
            if b = '<' then
              let name := rest3.takeWhile (fun x => x ≠ '>')
              match rest3.drop name.length with
              | [] => .error .reError
              | _ :: tail =>
                if !name.isEmpty && name.all Char.isDigit then
                  if digitsToNat name = 0 then consTok .grp0 (compileReplGo fuel tail)
                  else .error .reError
                else .error .reError
            else .error .reError
          | [] => .error .reError
        else if d = '0' then
          match rest2 with
          | d2 :: d3 :: rest4 =>
            if octD d2 then
              if octD d3 then
                consTok (.lit (Char.ofNat (octv d2 * 8 + octv d3))) (compileReplGo fuel rest4)
              else consTok (.lit (Char.ofNat (octv d2))) (compileReplGo fuel (d3 :: rest4))
            else consTok (.lit (Char.ofNat 0)) (compileReplGo fuel (d2 :: d3 :: rest4))
          | [d2] =>
            if octD d2 then .ok [.lit (Char.ofNat (octv d2))]
            else consTok (.lit (Char.ofNat 0)) (compileReplGo fuel [d2])
          | [] => .ok [.lit (Char.ofNat 0)]
        else if d.isDigit then
          match rest2 with
          | d2 :: d3 :: rest4 =>
            if d2.isDigit then
              if octD d && octD d2 && octD d3 then
                if octv d * 64 + octv d2 * 8 + octv d3 > 255 then .error .reError
                else consTok (.lit (Char.ofNat (octv d * 64 + octv d2 * 8 + octv d3)))
                  (compileReplGo fuel rest4)
              else .error .reError
            else .error .reError
          | _ => .error .reError
        else
          match escLit d with
          | some c2 => consTok (.lit c2) (compileReplGo fuel rest2)
          | none =>
            if d.isAlpha then .error .reError
            else consTok (.lit '\\') (consTok (.lit d) (compileReplGo fuel rest2))
    else consTok (.lit c) (compileReplGo fuel rest)

/-- Embeds the compilation of an `re.sub` replacement string into a
template (raising `re.error` on a bad template, before any match is
substituted). -/
def compileRepl (l : List Char) : Except PyErr (List ReplTok) :=
  compileReplGo (l.length + 1) l

/-- Expand a compiled template at one match; `m0` is group 0 (the
matched text). -/
def renderRepl (toks : List ReplTok) (m0 : List Char) : List Char :=
  toks.foldr (fun tk acc =>
    (match tk with
     | .lit c => [c]
     | .grp0 => m0) ++ acc) []

/-- Embeds `re.sub` of the section pattern by the compiled template `toks`,
all occurrences, scanning the original text left to right, continuing
after each match; each replacement expands the template at the match
(group 0 is `s[i:e]`). -/
def sectionSubAllGo (T : List Char) (toks : List ReplTok) (s : List Char) :
    Nat → Nat → List Char
  | 0, pos => s.drop pos
  | fuel + 1, pos =>
    match sectionSearchFrom s T pos with
    | none => s.drop pos
    | some (i, e) =>
      ((s.take i).drop pos) ++ renderRepl toks ((s.take e).drop i) ++
        sectionSubAllGo T toks s fuel e

/-- Embeds `re.sub(rf"(?ms)^\s*{re.escape(title)}\s*$.*?(?=^\S|\Z)", repl, s)`
for the compiled template `toks` of `repl`. -/
def sectionSubAll (T : List Char) (toks : List ReplTok) (s : List Char) : List Char :=
  sectionSubAllGo T toks s (s.length + 1) 0

/-- Python `v.get(k)` (`None` default): `AttributeError` on non-dicts. -/
def pyDotGet (v : JValue) (k : String) : Except PyErr JValue :=
  match v with
  | .obj kvs => .ok ((objGet kvs k).getD .null)
  | _ => .error .attributeError

/-- Python `v or d`. -/
def pyOr (v d : JValue) : JValue :=
  if jTruthy v then v else d

/-- Python `v.strip()` on a value expected to be a string:
`AttributeError` otherwise. -/
def pyStripJ (v : JValue) : Except PyErr String :=
  match v with
  | .str s => .ok (pyStrip s)
  | _ => .error .attributeError

/-- Python `v.strip().lower()` on a value expected to be a string. -/
def pyStripLowerJ (v : JValue) : Except PyErr String :=
  match v with
  | .str s => .ok (pyLower (pyStrip s))
  | _ => .error .attributeError

/-- Python `v.get(k, d)`: `AttributeError` on non-dicts. -/
def pyGetDefault (v : JValue) (k : String) (d : JValue) : Except PyErr JValue :=
  match v with
  | .obj kvs => .ok ((objGet kvs k).getD d)
  | _ => .error .attributeError

/-- Python `for x in v`: lists yield elements, strings their characters,
dicts their keys; other values raise `TypeError`. -/
def pyIter (v : JValue) : Except PyErr (List JValue) :=
  match v with
  | .arr xs => .ok xs
  | .str s => .ok (s.data.map (fun c => .str (String.mk [c])))
  | .obj kvs => .ok (kvs.map (fun kv => .str kv.1))
  | _ => .error .typeError

/-- Python `len(v)` (called when logging the patch list): `TypeError` on
unsized values. -/
def pyLen (v : JValue) : Except PyErr Nat :=
  match v with
  | .arr xs => .ok xs.length
  | .str s => .ok s.length
  | .obj kvs => .ok kvs.length
  | _ => .error .typeError

/-- One inline fix `{find, replace}` (lines 32–38): trimmed `find` and
`replace` must be non-empty and `find` must occur for the replacement to
happen. -/
def applyInlineFix (t : String) (fx : JValue) : Except PyErr String :=
  match pyDotGet fx "find" with
  | .error e => .error e
  | .ok fv =>
    match pyStripJ (pyOr fv (.str "")) with
    | .error e => .error e
    | .ok find =>
      match pyDotGet fx "replace" with
      | .error e => .error e
      | .ok rv =>
        match pyStripJ (pyOr rv (.str "")) with
        | .error e => .error e
        | .ok repl =>
          if find ≠ "" ∧ repl ≠ "" ∧ pyInStr find t then .ok (pyReplace t find repl)
          else .ok t

/-- One section patch (lines 52–103).  A patch with empty (or missing)
title or content is skipped; any unrecognized action falls into the
`append` branch, as in the source's `else`.  In the present-title
`insert`/`replace` branch the source calls `re.sub` with
`content + "\n"` as the replacement: the replacement is compiled as a
template (`compileRepl`, raising `re.error` on a bad escape or group
reference) and expanded at each match. -/
def applySectionPatch (t : String) (p : JValue) : Except PyErr String :=
  match pyDotGet p "title" with
  | .error e => .error e
  | .ok tv =>
    match pyStripJ (pyOr tv (.str "")) with
    | .error e => .error e
    | .ok title =>
      match pyDotGet p "action" with
      | .error e => .error e
      | .ok av =>
        match pyStripLowerJ (pyOr av (.str "append")) with
        | .error e => .error e
        | .ok action =>
          match pyDotGet p "content" with
          | .error e => .error e
          | .ok cv =>
            match pyStripJ (pyOr cv (.str "")) with
            | .error e => .error e
            | .ok content =>
              if title = "" ∨ content = "" then .ok t
              else
                let s := t.data
                let T := title.data
                let found := findSectionB title t
                if action = "insert" ∨ action = "replace" then
                  if !found then .ok (pyRstrip t ++ "\n\n" ++ content ++ "\n")
                  else
                    match compileRepl (content.data ++ ['\n']) with
                    | .error e => .error e
                    | .ok toks => .ok (String.mk (sectionSubAll T toks s))
                else
                  if !found then .ok (pyRstrip t ++ "\n\n" ++ content ++ "\n")
                  else
                    match sectionSearchFrom s T 0 with
                    | some (i, e) =>
                      let existing := pyRstrip (String.mk ((s.take e).drop i)) ++ "\n"
                      .ok (String.mk (s.take i) ++ existing ++ "\n" ++ pyStrip content ++ "\n" ++
                        String.mk (s.drop e))
                    | none => .ok (pyRstrip t ++ "\n\n" ++ content ++ "\n")

/-- The section-patch block of `apply_validator_patches` (lines 41–103):
guarded by `if patches:`, it logs `len(patches)` and then iterates. -/
def sectionsStage (t1 : String) (patches : JValue) : Except PyErr String :=
  if jTruthy patches then
    match pyLen patches with
    | .error e => .error e
    | .ok _ =>
      match pyIter patches with
      | .error e => .error e
      | .ok ps => ps.foldlM applySectionPatch t1
  else .ok t1

/-- Embeds `apply_validator_patches(current_text, report)`: inline fixes first,
then section patches.  The `Except.bind` chain sequences the statements,
propagating a raised exception past the rest of the function. -/
def apply_validator_patches (current_text : String) (report : JValue) :
    Except PyErr String :=
  Except.bind (pyGetDefault report "inline_fixes" (.arr [])) (fun inline_fixes =>
    Except.bind (pyIter inline_fixes) (fun fxs =>
      Except.bind (fxs.foldlM applyInlineFix current_text) (fun t1 =>
        Except.bind (pyGetDefault report "section_patches" (.arr [])) (fun patches =>
          sectionsStage t1 patches))))

/-- The lower-cased word set of a text (`set(text.lower().split())`). -/
def wordSet (t : String) : Finset String :=
  (pySplitWs (pyLower t)).toFinset

/-- Embeds `calculate_text_similarity` (Jaccard over word sets; the source's
`try`/`except` fallback of 0.5 is unreachable since no operation in the
body can raise).  Python's float division of the two cardinalities is the
exact rational `mkRat`. -/
def calculate_text_similarity (text1 text2 : String) : ℚ :=
  let words1 := wordSet text1
  let words2 := wordSet text2
  if words1.card = 0 ∧ words2.card = 0 then 1
  else if words1.card = 0 ∨ words2.card = 0 then 0
  else
    let intersection := (words1 ∩ words2).card
    let union := (words1 ∪ words2).card
    if union > 0 then mkRat intersection union else 0

/-- Embeds `determine_editing_mode(iteration, current_score, prev_score,
similarity)`; the constants 0.5 and 0.95 are written as `mkRat 1 2` and
`mkRat 19 20`. -/
def determine_editing_mode (iteration : Nat)
    (current_score prev_score similarity : ℚ) : String :=
  let score_delta := if prev_score > 0 then current_score - prev_score else 0
  if 2 ≤ iteration ∧ score_delta < mkRat 1 2 then "hard"
  else if similarity > mkRat 19 20 then "hard"
  else if 3 ≤ iteration ∧ current_score < 7 then "hard"
  else "soft"

/-! ## `validation_agent/claude_validator.py` -/

/-- Result of one refinement run, together with the number of scoring
calls it made (the observable the termination property is about). -/
structure RefineResult where
  text : String
  score : ℚ
  nValidate : Nat
  deriving DecidableEq

/-- The loop of `ClaudeValidatorAgent.iterative_refinement`
(lines 229–294).  The external services are call-indexed oracles:
`validate k t` is the score the loop reads (`result.get('score', 5.0)`)
from the `k`-th `validate_and_score` call on text `t` — that method
never raises, every failure mode returns a default dict; `fix k t` is
the text returned by the `k`-th `fix_text_with_claude` call (on any
failure it returns its input unchanged).  `fuel` is the number of loop
iterations left (`max_iterations - iteration`); `v` and `f` count calls
made so far.  On loop exit — budget exhausted, or either `break` — a
final scoring pass runs on the current text (lines 278–294). -/
def iterRefineLoop (validate : Nat → String → ℚ) (fix : Nat → String → String)
    (target : ℚ) : Nat → Nat → Nat → String → RefineResult
  | 0, v, _, current =>
    { text := current, score := validate v current, nValidate := v + 1 }
  | fuel + 1, v, f, current =>
    let s := validate v current
    if target ≤ s then
      { text := current, score := s, nValidate := v + 1 }
    else
      let improved := fix f current
      if improved ≠ "" ∧ 100 < (pyStrip improved).length then
        -- `len(improved) < len(current) * 0.7`: the right side is the
        -- exact rational `7 * len(current) / 10`
        if mkRat improved.length 1 < mkRat (7 * current.length) 10 then
          -- candidate shrank below 70 %: rejected, and the loop breaks
          { text := current, score := validate (v + 1) current, nValidate := v + 2 }
        else
          iterRefineLoop validate fix target fuel (v + 1) (f + 1) improved
      else
        { text := current, score := validate (v + 1) current, nValidate := v + 2 }

/-- Embeds `iterative_refinement(text, …, target_score, max_iterations)`. -/
def iterative_refinement (validate : Nat → String → ℚ) (fix : Nat → String → String)
    (text : String) (target_score : ℚ) (max_iterations : Nat) : RefineResult :=
  iterRefineLoop validate fix target_score max_iterations 0 0 text

/-! ## `validation_agent/rlhf_system.py` -/

/-- One entry of `iteration_history` (the fields the loop's control flow
reads; the issue/suggestion lists recorded alongside flow only into the
next prompt, which is part of the opaque regeneration call). -/
structure IterRec where
  iteration : Nat
  score : ℚ
  textLength : Nat
  deriving DecidableEq

/-- Result of `RLHFFeedbackSystem.iterative_improvement`, with the
number of scoring steps performed. -/
structure RLHFResult where
  text : String
  score : ℚ
  history : List IterRec
  nScoring : Nat
  deriving DecidableEq

/-- The `for iteration in range(1, max_iterations + 1)` loop of
`RLHFFeedbackSystem.iterative_improvement` (lines 57–137).  Oracles:
`validate k t` is the score of the `k`-th scoring step (the Claude path
or `_fallback_scoring`; neither raises); `regen k t` is the `k`-th
regeneration call, `none` modelling a raised exception, in which case
the code falls back to `fallbackFix`.  (`_fallback_fix` never raises;
the Claude-configured fallback passes three arguments to the
two-parameter `fix_text_with_claude` and would itself raise a
`TypeError`, aborting the run — also within the scoring-call bound —
so the oracle models the non-raising path.)  `fuel` is the number of iterations
left including the current one, so `0 < fuel - 1` is the source's
`iteration < self.max_iterations` guard for the regeneration step. -/
def rlhfLoop (validate : Nat → String → ℚ) (regen : Nat → String → Option String)
    (fallbackFix : Nat → String → String) (target : ℚ) :
    Nat → Nat → String → String → ℚ → List IterRec → Nat → Nat → Nat → RLHFResult
  | 0, _, _, bestText, bestScore, hist, v, _, _ =>
    { text := bestText, score := bestScore, history := hist, nScoring := v }
  | fuel + 1, iter, current, bestText, bestScore, hist, v, r, f =>
    let s := validate v current
    let hist2 := hist ++ [⟨iter, s, current.length⟩]
    let bestText2 := if bestScore < s then current else bestText
    let bestScore2 := if bestScore < s then s else bestScore
    if target ≤ s then
      { text := current, score := s, history := hist2, nScoring := v + 1 }
    else
      if 0 < fuel then
        match regen r current with
        | some t2 =>
          rlhfLoop validate regen fallbackFix target fuel (iter + 1) t2
            bestText2 bestScore2 hist2 (v + 1) (r + 1) f
        | none =>
          rlhfLoop validate regen fallbackFix target fuel (iter + 1)
            (fallbackFix f current) bestText2 bestScore2 hist2 (v + 1) (r + 1) (f + 1)
      else
        rlhfLoop validate regen fallbackFix target fuel (iter + 1) current
          bestText2 bestScore2 hist2 (v + 1) r f

/-- Embeds `self.max_iterations = 5`. -/
def RLHF_max_iterations : Nat := 5

/-- Embeds `self.target_scores` with the `.get(analysis_type, 8.5)` default. -/
def RLHF_target_score (analysis_type : String) : ℚ :=
  if analysis_type = "zodiac" then mkRat 17 2
  else if analysis_type = "forecast" then 9
  else if analysis_type = "compatibility" then 8
  else mkRat 17 2

/-- Embeds `iterative_improvement(initial_text, analysis_type, …)`:
`best_text = initial_text`, `best_score = 0.0`. -/
def iterative_improvement (validate : Nat → String → ℚ)
    (regen : Nat → String → Option String) (fallbackFix : Nat → String → String)
    (initial_text : String) (analysis_type : String) : RLHFResult :=
  rlhfLoop validate regen fallbackFix (RLHF_target_score analysis_type)
    RLHF_max_iterations 1 initial_text initial_text 0 [] 0 0 0

/-- Modelled from the words of claim C7, for comparison with
`determine_editing_mode`: "hard" exactly when `iteration >= 2` and the
score improvement since the previous iteration — read literally as
`currentScore - prevScore` — is `< 0.5`, or the similarity exceeds
`0.95`, or `iteration >= 3` and `currentScore < 7.0`. -/
def claimed_editing_mode (iteration : Nat)
    (current_score prev_score similarity : ℚ) : String :=
  if (2 ≤ iteration ∧ current_score - prev_score < mkRat 1 2) ∨
      similarity > mkRat 19 20 ∨ (3 ≤ iteration ∧ current_score < 7) then "hard"
  else "soft"

/-! ## Concrete fixtures used by counterexample runs -/

/-- A 150-character text (long enough to pass the `> 100` length gate). -/
def tA : String := String.mk (List.replicate 150 'a')

/-- A second 150-character text. -/
def tB : String := String.mk (List.replicate 150 'b')

/-- A third 150-character text. -/
def tC : String := String.mk (List.replicate 150 'c')

/-- A 200-character text. -/
def tLong : String := String.mk (List.replicate 200 'a')

/-- A 120-character candidate: longer than 100 after stripping, but
shorter than 70 % of `tLong` (140). -/
def tShort : String := String.mk (List.replicate 120 'b')

/-- Critic oracle scoring the initial text 8 and everything else 6. -/
def cexValidate (_k : Nat) (s : String) : ℚ :=
  if s = tA then 8 else 6

/-- Fixer oracle producing `tB` from `tA` and `tC` otherwise. -/
def cexFix (_k : Nat) (s : String) : String :=
  if s = tA then tB else tC

/-- A report holding one `replace` section patch. -/
def replacePatchReport (title content : String) : JValue :=
  .obj [("section_patches",
    .arr [.obj [("title", .str title), ("action", .str "replace"),
                ("content", .str content)]])]

/-- A Python value that can safely stand in a patch's string field:
falsy (so that `or ""` replaces it) or an actual string. -/
def valOkay (v : JValue) : Prop :=
  jTruthy v = false ∨ ∃ s, v = .str s

/-- A well-typed inline-fix entry: a dict whose `find`/`replace` fields
(if present) can be turned into strings. -/
def fixEntryOkay (fx : JValue) : Prop :=
  ∃ kvs, fx = .obj kvs ∧ valOkay ((objGet kvs "find").getD .null) ∧
    valOkay ((objGet kvs "replace").getD .null)

/-- A well-typed, template-safe content value: falsy or a string, and
if a string one containing no backslash (a backslash makes `re.sub`
interpret the replacement as a template — escapes are converted and a
bad escape or group reference raises `re.error`). -/
def contentOkay (v : JValue) : Prop :=
  valOkay v ∧ ∀ s, v = .str s → ∀ c ∈ s.data, c ≠ '\\'

/-- A well-typed section-patch entry (template-safe content). -/
def patchEntryOkay (p : JValue) : Prop :=
  ∃ kvs, p = .obj kvs ∧ valOkay ((objGet kvs "title").getD .null) ∧
    valOkay ((objGet kvs "action").getD .null) ∧
    contentOkay ((objGet kvs "content").getD .null)

/-- A report whose patch collections are well-typed: a dict whose
`inline_fixes` and `section_patches` (when present) are arrays of
well-typed entries. -/
def reportPatchesOkay (report : JValue) : Prop :=
  ∃ kvs, report = .obj kvs ∧
    (∃ fs, (objGet kvs "inline_fixes").getD (.arr []) = .arr fs ∧
      ∀ fx ∈ fs, fixEntryOkay fx) ∧
    (∃ ps, (objGet kvs "section_patches").getD (.arr []) = .arr ps ∧
      ∀ p ∈ ps, patchEntryOkay p)

/-! ## Helper lemmas -/

/-! ## Evaluation checks of the embedding on concrete inputs
(including the spec's Example scenario 2: a comma decimal inside prose) -/

example : jsonLoads "5" = some (.num 5) := by decide

example : jsonLoads "\x7b\x7d" = some (.obj []) := by decide

example : jsonLoads " \x7b\"score\": 9.5\x7d " = some (.obj [("score", .num (mkRat 19 2))]) := by
  decide

example : parse_validation_response "5" = .error .typeError := by decide

example : parse_validation_response "" = .ok defaultReport := by decide

example : parse_validation_response "\x7b\x7d" = .ok (.obj [("issues", .arr []), ("suggestions", .arr [])]) := by decide

example :
    parse_validation_response "Here is the result: \x7b\"score\": 9,2, \"issues\": []\x7d" =
      .ok (.obj [("score", .num (mkRat 46 5)), ("issues", .arr []), ("suggestions", .arr [])]) := by
  decide

example :
    apply_validator_patches "alpha"
      (.obj [("section_patches",
        .arr [.obj [("title", .str "SUMMARY"), ("action", .str "replace"),
                    ("content", .str "Extra")]])]) = .ok "alpha\n\nExtra\n" := by
  decide

example :
    apply_validator_patches "abc"
      (.obj [("inline_fixes", .arr [.obj [("find", .str "b"), ("replace", .str "X")]])]) =
      .ok "aXc" := by
  decide

example : compileRepl "a\\n".data = .ok [.lit 'a', .lit '\n'] := by decide

example : compileRepl "\\q".data = .error .reError := by decide

example : compileRepl "\\1".data = .error .reError := by decide

example : compileRepl "\\g<0>".data = .ok [.grp0] := by decide

example : compileRepl "\\377".data = .ok [.lit (Char.ofNat 255)] := by decide

example :
    apply_validator_patches "T\nbody" (replacePatchReport "T" "a\\nb") =
      .ok "a\nb\nbody" := by decide

example :
    apply_validator_patches "T\nbody" (replacePatchReport "T" "\\q") =
      .error .reError := by decide

example : calculate_text_similarity "A b" "b a" = 1 := by decide

example : determine_editing_mode 1 8 0 (mkRat 1 2) = "soft" := by decide


theorem objGet_isSome_iff_any (kvs : List (String × JValue)) (k : String) :
    (objGet kvs k).isSome ↔ kvs.any (fun kv => kv.1 = k) = true := by
  induction kvs with
  | nil => simp [objGet]
  | cons a rest ih =>
    obtain ⟨k1, v⟩ := a
    by_cases h : k1 = k
    · simp [objGet, h]
    · simp [objGet, h, ih]

theorem objGet_append_of_isSome (kvs l : List (String × JValue)) (k : String)
    (h : (objGet kvs k).isSome) : objGet (kvs ++ l) k = objGet kvs k := by
  induction kvs with
  | nil => simp [objGet] at h
  | cons a rest ih =>
    obtain ⟨k1, v⟩ := a
    by_cases hk : k1 = k
    · simp [objGet, hk]
    · simp only [objGet, hk, if_false, List.cons_append]
      exact ih (by simpa [objGet, hk] using h)

theorem objGet_append_of_none (kvs l : List (String × JValue)) (k : String)
    (h : objGet kvs k = none) : objGet (kvs ++ l) k = objGet l k := by
  induction kvs with
  | nil => simp [objGet]
  | cons a rest ih =>
    obtain ⟨k1, v⟩ := a
    by_cases hk : k1 = k
    · simp [objGet, hk] at h
    · simp only [objGet, hk, if_false, List.cons_append] at h ⊢
      exact ih h

theorem pySetdefault_ok_shape (d : JValue) (k : String) (v : JValue) (r : JValue)
    (h : pySetdefault d k v = .ok r) :
    ∃ kvs kvs2, d = .obj kvs ∧ r = .obj kvs2 ∧ (objGet kvs2 k).isSome ∧
      (∀ k2, (objGet kvs k2).isSome → objGet kvs2 k2 = objGet kvs k2) := by
  cases d with
  | obj kvs =>
    by_cases hany : kvs.any (fun kv => kv.1 = k) = true
    · refine ⟨kvs, kvs, rfl, ?_, ?_, ?_⟩
      · simpa [pySetdefault, hany] using h.symm
      · exact (objGet_isSome_iff_any kvs k).2 hany
      · intro _ _; rfl
    · refine ⟨kvs, kvs ++ [(k, v)], rfl, ?_, ?_, ?_⟩
      · simpa [pySetdefault, hany] using h.symm
      · have hn : objGet kvs k = none := by
          cases ho : objGet kvs k with
          | none => rfl
          | some w =>
            exact absurd ((objGet_isSome_iff_any kvs k).1 (by simp [ho])) hany
        rw [objGet_append_of_none kvs _ k hn]
        simp [objGet]
      · intro k2 h2
        exact objGet_append_of_isSome kvs _ k2 h2
  | null => simp [pySetdefault] at h
  | bool b => simp [pySetdefault] at h
  | num q => simp [pySetdefault] at h
  | str s => simp [pySetdefault] at h
  | arr xs => simp [pySetdefault] at h

theorem pyStripJ_or_emptyStr (f : String) :
    pyStripJ (pyOr (.str f) (.str "")) = .ok (pyStrip f) := by
  by_cases h : f = ""
  · subst h; rfl
  · simp [pyOr, jTruthy, h, pyStripJ]

theorem applyInlineFix_strs (t f r : String) :
    applyInlineFix t (.obj [("find", .str f), ("replace", .str r)]) =
      .ok (if pyStrip f ≠ "" ∧ pyStrip r ≠ "" ∧ pyInStr (pyStrip f) t then
        pyReplace t (pyStrip f) (pyStrip r) else t) := by
  simp [applyInlineFix, pyDotGet, objGet, pyStripJ_or_emptyStr]
  split
  · next hc => simp [hc]
  · next hc => simp [hc]

theorem exceptBind_ok2 {α β : Type} (a : α) (k : α → Except PyErr β) :
    Except.bind (Except.ok a) k = k a := rfl

theorem apply_patches_single_fix (t : String) (fx : JValue) (out : String)
    (h : applyInlineFix t fx = .ok out) :
    apply_validator_patches t (.obj [("inline_fixes", .arr [fx])]) = .ok out := by
  unfold apply_validator_patches
  rw [show pyGetDefault (.obj [("inline_fixes", JValue.arr [fx])]) "inline_fixes" (.arr []) =
      .ok (.arr [fx]) from rfl, exceptBind_ok2,
    show pyIter (JValue.arr [fx]) = .ok [fx] from rfl, exceptBind_ok2,
    show List.foldlM applyInlineFix t [fx] =
      Except.bind (applyInlineFix t fx) (fun b => List.foldlM applyInlineFix b []) from rfl,
    h]
  rfl

/-! ## Claim theorems -/

/-- Claim C1 (code bug): `parse_validation_response` is claimed never to
raise, but on the input `"5"` — whose extracted candidate parses to a
non-object JSON value — the numeric-coercion loop executes `"score" in 5`
and raises `TypeError`.  This theorem evaluates the embedded code at that
failing input. -/
theorem parse_validation_response_raises_on_scalar :
    parse_validation_response "5" = .error .typeError := by decide

/-- Claim C2, counterexample: the critic reply `{"score": 99}` yields a
report whose score is 99 — present but *not* clamped to [0, 10] — and
which contains no `section_patches`/`inline_fixes` keys at all. -/
theorem parse_validation_response_score_not_clamped :
    parse_validation_response "\x7b\"score\": 99\x7d" =
      .ok (.obj [("score", .num 99), ("issues", .arr []), ("suggestions", .arr [])]) ∧
    ¬ ((99 : ℚ) ≤ 10) := by
  decide

/-- Claim C2 (amended): whenever `parse_validation_response` returns
normally, the returned report is a dict that contains the keys `issues`
and `suggestions` (defaulted to empty lists when the parsed object lacked
them).  The score is coerced to a float when present, but it is neither
clamped to [0, 10] nor guaranteed to be present, and the
`section_patches`/`inline_fixes` fields are not defaulted. -/
theorem parse_validation_response_issue_fields_present :
    ∀ (content : String) (r : JValue), parse_validation_response content = .ok r →
      ∃ kvs, r = .obj kvs ∧ (objGet kvs "issues").isSome ∧
        (objGet kvs "suggestions").isSome := by
  intro content r h
  simp only [parse_validation_response] at h
  split at h
  · exact absurd h (by simp)
  · next d1 hc =>
    split at h
    · exact absurd h (by simp)
    · next d2 hsd1 =>
      obtain ⟨kvs1, kvs2, hd2, hr, hsugg, hpres⟩ :=
        pySetdefault_ok_shape d2 "suggestions" (.arr []) r h
      obtain ⟨kvs0, kvs1b, _, hd2b, hiss, _⟩ :=
        pySetdefault_ok_shape d1 "issues" (.arr []) d2 hsd1
      rw [hd2b] at hd2
      cases hd2
      refine ⟨kvs2, hr, ?_, hsugg⟩
      rw [hpres "issues" hiss]
      exact hiss

/-- Witness for C2: at the empty input both parse attempts fail and the
default report is returned; the theorem applies and its fields are
present. -/
theorem parse_validation_response_issue_fields_present_witness :
    ∃ kvs, defaultReport = .obj kvs ∧ (objGet kvs "issues").isSome ∧
      (objGet kvs "suggestions").isSome :=
  parse_validation_response_issue_fields_present "" defaultReport (by decide)

/-- Claim C7, counterexample: at `iteration = 2`, `currentScore = 9`,
`prevScore = 0`, `similarity = 0.5`, the code zeroes the score delta
(because `prev_score > 0` fails) and returns "hard", while the claim's
formula — improvement `9 - 0 = 9 ≥ 0.5`, similarity `≤ 0.95`,
`iteration < 3` — says "soft". -/
theorem determine_editing_mode_zero_prev_counterexample :
    determine_editing_mode 2 9 0 (mkRat 1 2) = "hard" ∧
      claimed_editing_mode 2 9 0 (mkRat 1 2) = "soft" := by
  constructor
  · unfold determine_editing_mode
    norm_num [Rat.mkRat_eq_div]
  · unfold claimed_editing_mode
    norm_num [Rat.mkRat_eq_div]

/-- Claim C7 (amended): `determine_editing_mode` returns "hard" exactly
when `iteration ≥ 2` and the *guarded* score delta — `currentScore -
prevScore` if `prevScore > 0`, else `0.0` — is below 0.5, or the
similarity exceeds 0.95, or `iteration ≥ 3` and `currentScore < 7`;
"soft" otherwise.  In particular similarity 0.97 at iteration 2 yields
"hard". -/
theorem determine_editing_mode_characterization :
    (∀ (iteration : Nat) (cs ps sim : ℚ),
      determine_editing_mode iteration cs ps sim =
        (if (2 ≤ iteration ∧ (if ps > 0 then cs - ps else 0) < mkRat 1 2) ∨
            sim > mkRat 19 20 ∨ (3 ≤ iteration ∧ cs < 7) then "hard" else "soft")) ∧
    (∀ (cs ps : ℚ), determine_editing_mode 2 cs ps (mkRat 97 100) = "hard") := by
  constructor
  · intro i cs ps sim
    unfold determine_editing_mode
    by_cases h1 : 2 ≤ i ∧ (if ps > 0 then cs - ps else 0) < mkRat 1 2
    · simp [h1]
    · by_cases h2 : sim > mkRat 19 20
      · simp [h1, h2]
      · by_cases h3 : 3 ≤ i ∧ cs < 7
        · simp [h1, h2, h3]
        · simp [h1, h2, h3]
  · intro cs ps
    unfold determine_editing_mode
    have hs : (mkRat 19 20 : ℚ) < mkRat 97 100 := by decide
    by_cases h1 : 2 ≤ 2 ∧ (if ps > 0 then cs - ps else 0) < mkRat 1 2
    · simp [h1]
    · simp [h1, hs]

/-- Claim C9, counterexample: the fix `{find: "b", replace: ""}` on
`"abc"` — `find` non-empty and occurring — is *not* applied (the code
additionally requires a non-empty `replace`), although the claimed
literal replacement would give `"ac"`. -/
theorem inline_fix_empty_replace_not_applied :
    apply_validator_patches "abc"
      (.obj [("inline_fixes", .arr [.obj [("find", .str "b"), ("replace", .str "")]])]) =
      .ok "abc" ∧ pyReplace "abc" "b" "" = "ac" ∧ ("abc" : String) ≠ "ac" := by
  decide

/-- Claim C9 (amended): an inline fix `{find, replace}` is applied — as a
literal substring replacement of the *trimmed* `find` by the *trimmed*
`replace` — exactly when both trimmed strings are non-empty and the
trimmed `find` occurs in the text; otherwise it is silently skipped and
the text is unchanged. -/
theorem inline_fix_characterization (text f r : String) :
    apply_validator_patches text
      (.obj [("inline_fixes", .arr [.obj [("find", .str f), ("replace", .str r)]])]) =
      .ok (if pyStrip f ≠ "" ∧ pyStrip r ≠ "" ∧ pyInStr (pyStrip f) text then
        pyReplace text (pyStrip f) (pyStrip r) else text) :=
  apply_patches_single_fix text _ _ (applyInlineFix_strs text f r)

theorem calculate_text_similarity_eq (t1 t2 : String) :
    calculate_text_similarity t1 t2 =
      if wordSet t1 = ∅ ∧ wordSet t2 = ∅ then 1
      else if wordSet t1 = ∅ ∨ wordSet t2 = ∅ then 0
      else ((wordSet t1 ∩ wordSet t2).card : ℚ) / ((wordSet t1 ∪ wordSet t2).card : ℚ) := by
  unfold calculate_text_similarity
  by_cases h1 : wordSet t1 = ∅
  · by_cases h2 : wordSet t2 = ∅
    · simp [h1, h2, Finset.card_eq_zero]
    · simp [h1, h2, Finset.card_eq_zero]
  · by_cases h2 : wordSet t2 = ∅
    · simp [h1, h2, Finset.card_eq_zero]
    · have hu : 0 < (wordSet t1 ∪ wordSet t2).card :=
        Finset.card_pos.2 ((Finset.nonempty_iff_ne_empty.2 h1).mono Finset.subset_union_left)
      simp only [h1, h2, Finset.card_eq_zero, and_false, false_and, or_false, false_or,
        if_false, ite_false, hu, if_pos, if_true, ite_true, eq_self_iff_true]
      rw [Rat.mkRat_eq_div]
      push_cast
      ring

/-- Claim C10 (confirmed): `calculate_text_similarity` is symmetric,
always lies in `[0, 1]`, returns 1 when both word sets are empty, 0 when
exactly one is empty, and 1 whenever the two lower-cased word sets are
equal. -/
theorem calculate_text_similarity_props (t1 t2 : String) :
    calculate_text_similarity t1 t2 = calculate_text_similarity t2 t1 ∧
    0 ≤ calculate_text_similarity t1 t2 ∧
    calculate_text_similarity t1 t2 ≤ 1 ∧
    (wordSet t1 = ∅ ∧ wordSet t2 = ∅ → calculate_text_similarity t1 t2 = 1) ∧
    ((wordSet t1 = ∅ ∧ wordSet t2 ≠ ∅) ∨ (wordSet t1 ≠ ∅ ∧ wordSet t2 = ∅) →
      calculate_text_similarity t1 t2 = 0) ∧
    (wordSet t1 = wordSet t2 → calculate_text_similarity t1 t2 = 1) := by
  have key := calculate_text_similarity_eq t1 t2
  have key2 := calculate_text_similarity_eq t2 t1
  refine ⟨?_, ?_, ?_, ?_, ?_, ?_⟩
  · rw [key, key2, Finset.inter_comm, Finset.union_comm]
    by_cases h1 : wordSet t1 = ∅ <;> by_cases h2 : wordSet t2 = ∅ <;> simp [h1, h2]
  · rw [key]
    by_cases h1 : wordSet t1 = ∅ <;> by_cases h2 : wordSet t2 = ∅ <;> simp [h1, h2]
    positivity
  · rw [key]
    by_cases h1 : wordSet t1 = ∅ <;> by_cases h2 : wordSet t2 = ∅ <;> simp [h1, h2]
    have hu : 0 < (wordSet t1 ∪ wordSet t2).card :=
      Finset.card_pos.2 ((Finset.nonempty_iff_ne_empty.2 h1).mono Finset.subset_union_left)
    rw [div_le_one (by exact_mod_cast hu)]
    exact_mod_cast Finset.card_le_card Finset.inter_subset_union
  · intro h
    rw [key, if_pos h]
  · intro h
    rw [key]
    rcases h with ⟨h1, h2⟩ | ⟨h1, h2⟩
    · rw [if_neg (by tauto), if_pos (Or.inl h1)]
    · rw [if_neg (by tauto), if_pos (Or.inr h2)]
  · intro h
    rw [key, h]
    by_cases h2 : wordSet t2 = ∅
    · simp [h2]
    · have hpos : 0 < ((wordSet t2).card : ℚ) :=
        by exact_mod_cast Finset.card_pos.2 (Finset.nonempty_iff_ne_empty.2 h2)
      simp [h2, Finset.inter_self, Finset.union_self, div_self (ne_of_gt hpos)]

/-- Witness for C10 at concrete texts. -/
theorem calculate_text_similarity_props_witness :
    calculate_text_similarity "" "" = 1 ∧
      calculate_text_similarity "Some words" "Some words" = 1 :=
  ⟨(calculate_text_similarity_props "" "").2.2.2.1 ⟨rfl, rfl⟩,
   (calculate_text_similarity_props "Some words" "Some words").2.2.2.2.2 rfl⟩

theorem iterRefineLoop_nValidate_le (validate : Nat → String → ℚ)
    (fix : Nat → String → String) (target : ℚ) :
    ∀ (fuel v f : Nat) (current : String),
      (iterRefineLoop validate fix target fuel v f current).nValidate ≤ v + fuel + 1 := by
  intro fuel
  induction fuel with
  | zero =>
    intro v f current
    simp [iterRefineLoop]
  | succ n ih =>
    intro v f current
    simp only [iterRefineLoop]
    split
    · simp
    · split
      · split
        · simp
        · have := ih (v + 1) (f + 1) (fix f current)
          omega
      · simp

theorem rlhfLoop_nScoring_le (validate : Nat → String → ℚ)
    (regen : Nat → String → Option String) (fb : Nat → String → String) (target : ℚ) :
    ∀ (fuel iter : Nat) (current bestT : String) (bestS : ℚ) (hist : List IterRec)
      (v r f : Nat),
      (rlhfLoop validate regen fb target fuel iter current bestT bestS hist v r f).nScoring
        ≤ v + fuel := by
  intro fuel
  induction fuel with
  | zero =>
    intro iter current bestT bestS hist v r f
    simp [rlhfLoop]
  | succ n ih =>
    intro iter current bestT bestS hist v r f
    simp only [rlhfLoop]
    by_cases hconv : target ≤ validate v current
    · rw [if_pos hconv]
      simp
    · rw [if_neg hconv]
      by_cases hfu : 0 < n
      · rw [if_pos hfu]
        cases hre : regen r current with
        | some t2 =>
          exact le_trans
            (ih (iter + 1) t2
              (if bestS < validate v current then current else bestT)
              (if bestS < validate v current then validate v current else bestS)
              (hist ++ [⟨iter, validate v current, current.length⟩]) (v + 1) (r + 1) f)
            (by omega)
        | none =>
          exact le_trans
            (ih (iter + 1) (fb f current)
              (if bestS < validate v current then current else bestT)
              (if bestS < validate v current then validate v current else bestS)
              (hist ++ [⟨iter, validate v current, current.length⟩]) (v + 1) (r + 1) (f + 1))
            (by omega)
      · rw [if_neg hfu]
        exact le_trans
          (ih (iter + 1) current
            (if bestS < validate v current then current else bestT)
            (if bestS < validate v current then validate v current else bestS)
            (hist ++ [⟨iter, validate v current, current.length⟩]) (v + 1) r f)
          (by omega)

set_option maxRecDepth 8000 in
/-- Claim C4, counterexample: with `maxIterations = 1` and a critic that
never reaches the target, the run makes 2 scoring passes (one loop pass
plus the final pass), exceeding the claimed bound of `maxIterations`. -/
theorem iterative_refinement_exceeds_scoring_budget :
    (iterative_refinement (fun _ _ => 5) (fun _ _ => tB) tA 10 1).nValidate = 2 ∧
      ¬ (2 ≤ 1) := by
  decide

/-- Claim C4 (amended): both loops terminate on every oracle behaviour;
`ClaudeValidatorAgent.iterative_refinement` makes at most
`maxIterations + 1` scoring passes (one per loop iteration plus the final
pass on exit), and `RLHFFeedbackSystem.iterative_improvement` makes at
most `max_iterations` (= 5) scoring passes. -/
theorem refinement_scoring_call_bounds :
    (∀ (validate : Nat → String → ℚ) (fix : Nat → String → String)
        (text : String) (target : ℚ) (maxIter : Nat),
      (iterative_refinement validate fix text target maxIter).nValidate ≤ maxIter + 1) ∧
    (∀ (validate : Nat → String → ℚ) (regen : Nat → String → Option String)
        (fb : Nat → String → String) (initial : String) (analysisType : String),
      (iterative_improvement validate regen fb initial analysisType).nScoring ≤
        RLHF_max_iterations) := by
  constructor
  · intro validate fix text target maxIter
    have := iterRefineLoop_nValidate_le validate fix target maxIter 0 0 text
    simpa [iterative_refinement] using this
  · intro validate regen fb initial analysisType
    have := rlhfLoop_nScoring_le validate regen fb (RLHF_target_score analysisType)
      RLHF_max_iterations 1 initial initial 0 [] 0 0 0
    simpa [iterative_improvement] using this

set_option maxRecDepth 8000 in
/-- Claim C3, counterexample: a run of
`ClaudeValidatorAgent.iterative_refinement` whose first text scores 8 and
whose rewrites score 6 returns the *last* text with score 6, not the
best-seen text `tA` (which scored 8): the loop tracks no best text. -/
theorem iterative_refinement_returns_non_best_text :
    iterative_refinement cexValidate cexFix tA 10 2 = ⟨tC, 6, 3⟩ ∧
      cexValidate 0 tA = 8 ∧ tC ≠ tA ∧ (6 : ℚ) < 8 := by
  decide

theorem rlhfLoop_score_ge_history (validate : Nat → String → ℚ)
    (regen : Nat → String → Option String) (fb : Nat → String → String) (target : ℚ) :
    ∀ (fuel iter : Nat) (current bestT : String) (bestS : ℚ) (hist : List IterRec)
      (v r f : Nat),
      (∀ rec ∈ hist, rec.score ≤ bestS ∧ rec.score < target) →
      ∀ rec ∈ (rlhfLoop validate regen fb target fuel iter current bestT
          bestS hist v r f).history,
        rec.score ≤
          (rlhfLoop validate regen fb target fuel iter current bestT bestS hist v r f).score := by
  intro fuel
  induction fuel with
  | zero =>
    intro iter current bestT bestS hist v r f hinv rec hrec
    simp only [rlhfLoop] at hrec ⊢
    exact (hinv rec hrec).1
  | succ n ih =>
    intro iter current bestT bestS hist v r f hinv rec hrec
    have hinv2 : ∀ rec2 ∈ hist ++ [⟨iter, validate v current, current.length⟩],
        rec2.score ≤ (if bestS < validate v current then validate v current else bestS) ∧
          (¬ target ≤ validate v current → rec2.score < target) := by
      intro rec2 h2
      rcases List.mem_append.1 h2 with h2 | h2
      · refine ⟨le_trans (hinv rec2 h2).1 ?_, fun _ => (hinv rec2 h2).2⟩
        split
        · next hlt => exact le_of_lt hlt
        · exact le_refl _
      · simp only [List.mem_singleton] at h2
        subst h2
        refine ⟨?_, fun hns => lt_of_not_le hns⟩
        split
        · exact le_refl _
        · next hnlt => exact le_of_not_lt hnlt
    simp only [rlhfLoop] at hrec ⊢
    by_cases hconv : target ≤ validate v current
    · rw [if_pos hconv] at hrec ⊢
      rcases List.mem_append.1 hrec with h2 | h2
      · exact le_trans (le_of_lt (hinv rec h2).2) hconv
      · simp only [List.mem_singleton] at h2
        subst h2
        exact le_refl _
    · have hinv3 : ∀ rec2 ∈ hist ++ [⟨iter, validate v current, current.length⟩],
          rec2.score ≤ (if bestS < validate v current then validate v current else bestS) ∧
            rec2.score < target :=
        fun rec2 h2 => ⟨(hinv2 rec2 h2).1, (hinv2 rec2 h2).2 hconv⟩
      rw [if_neg hconv] at hrec ⊢
      by_cases hfu : 0 < n
      · rw [if_pos hfu] at hrec ⊢
        cases hre : regen r current with
        | some t2 =>
          rw [hre] at hrec
          exact ih (iter + 1) t2 _ _ _ (v + 1) (r + 1) f hinv3 rec hrec
        | none =>
          rw [hre] at hrec
          exact ih (iter + 1) (fb f current) _ _ _ (v + 1) (r + 1) (f + 1) hinv3 rec hrec
      · rw [if_neg hfu] at hrec ⊢
        exact ih (iter + 1) current _ _ _ (v + 1) r f hinv3 rec hrec

/-- Claim C3 (amended): `RLHFFeedbackSystem.iterative_improvement`
returns, on every oracle behaviour, a score at least as high as every
score recorded in its history — on exhaustion it returns the stored
`(best_text, best_score)` pair, but *without* a final scoring pass on the
best text; `ClaudeValidatorAgent.iterative_refinement` tracks no best
text at all and re-scores and returns the last accepted text, which can
score below an earlier candidate. -/
theorem rlhf_returns_best_seen_score :
    ∀ (validate : Nat → String → ℚ) (regen : Nat → String → Option String)
      (fb : Nat → String → String) (initial analysisType : String),
      ∀ rec ∈ (iterative_improvement validate regen fb initial analysisType).history,
        rec.score ≤ (iterative_improvement validate regen fb initial analysisType).score := by
  intro validate regen fb initial analysisType
  exact rlhfLoop_score_ge_history validate regen fb (RLHF_target_score analysisType)
    RLHF_max_iterations 1 initial initial 0 [] 0 0 0 (by simp)

/-- Witness for C3: a concrete 5-iteration run scoring 3 everywhere. -/
theorem rlhf_returns_best_seen_score_witness :
    (⟨1, 3, 1⟩ : IterRec).score ≤
      (iterative_improvement (fun _ _ => 3) (fun _ s => some s) (fun _ s => s)
        "a" "zodiac").score :=
  rlhf_returns_best_seen_score (fun _ _ => 3) (fun _ s => some s) (fun _ s => s)
    "a" "zodiac" ⟨1, 3, 1⟩ (by decide)

set_option maxRecDepth 8000 in
/-- Claim C5, counterexample: with an iteration budget of 3 and a fixer
whose first candidate is shorter than 70 % of the text, the run stops
after the first iteration — 2 scoring calls in total (iteration 1 plus
the final pass) — instead of proceeding to iterations 2 and 3; the
current text is kept. -/
theorem short_candidate_aborts_run_counterexample :
    iterative_refinement (fun _ _ => 5) (fun _ _ => tShort) tLong 10 3 = ⟨tLong, 5, 2⟩ ∧
      (2 : Nat) < 3 ∧ tShort ≠ "" ∧ 100 < (pyStrip tShort).length := by
  decide

/-- Claim C5 (amended): when the fixer's candidate is non-empty, longer
than 100 characters after stripping, but shorter than 70 % of the current
text, the candidate is rejected — the pre-iteration text is kept — and
the loop `break`s out to the final scoring pass instead of proceeding to
the next iteration. -/
theorem short_candidate_rejected_and_loop_exits
    (validate : Nat → String → ℚ) (fix : Nat → String → String) (target : ℚ)
    (fuel v f : Nat) (current : String)
    (hscore : ¬ target ≤ validate v current)
    (hne : fix f current ≠ "")
    (hlen : 100 < (pyStrip (fix f current)).length)
    (hshort : mkRat (fix f current).length 1 < mkRat (7 * current.length) 10) :
    iterRefineLoop validate fix target (fuel + 1) v f current =
      { text := current, score := validate (v + 1) current, nValidate := v + 2 } := by
  simp only [iterRefineLoop]
  rw [if_neg hscore, if_pos ⟨hne, hlen⟩, if_pos hshort]

theorem apply_patches_single_section (t : String) (p : JValue) (out : String)
    (h : applySectionPatch t p = .ok out) :
    apply_validator_patches t (.obj [("section_patches", .arr [p])]) = .ok out := by
  unfold apply_validator_patches
  rw [show pyGetDefault (.obj [("section_patches", JValue.arr [p])]) "inline_fixes"
      (.arr []) = .ok (.arr []) from rfl, exceptBind_ok2,
    show pyIter (JValue.arr ([] : List JValue)) = .ok [] from rfl, exceptBind_ok2,
    show List.foldlM applyInlineFix t ([] : List JValue) =
      (Except.ok t : Except PyErr String) from rfl, exceptBind_ok2,
    show pyGetDefault (.obj [("section_patches", JValue.arr [p])]) "section_patches"
      (.arr []) = .ok (.arr [p]) from rfl, exceptBind_ok2,
    show sectionsStage t (.arr [p]) =
      Except.bind (applySectionPatch t p) (fun b => List.foldlM applySectionPatch b [])
      from rfl,
    h]
  rfl

theorem apply_replace_patch_absent (t title content : String)
    (ht : pyStrip title ≠ "") (hc : pyStrip content ≠ "")
    (h1 : findSectionB (pyStrip title) t = false) :
    apply_validator_patches t (replacePatchReport title content) =
      .ok (pyRstrip t ++ "\n\n" ++ pyStrip content ++ "\n") := by
  have ha : pyStripLowerJ (pyOr (.str "replace") (.str "append")) = .ok "replace" := rfl
  have hpatch : applySectionPatch t
      (.obj [("title", .str title), ("action", .str "replace"), ("content", .str content)]) =
      .ok (pyRstrip t ++ "\n\n" ++ pyStrip content ++ "\n") := by
    simp [applySectionPatch, pyDotGet, objGet, pyStripJ_or_emptyStr, ha, ht, hc, h1]
  exact apply_patches_single_section t _ _ hpatch

/-- Claim C6, counterexample: applying the `replace` patch
`{title: "SUMMARY", content: "Extra"}` to `"alpha"` twice appends the
content twice — the patch appends only the content, never the title
heading, so the second application cannot find the section and appends
again.  Idempotence fails. -/
theorem replace_patch_not_idempotent :
    apply_validator_patches "alpha" (replacePatchReport "SUMMARY" "Extra") =
      .ok "alpha\n\nExtra\n" ∧
    apply_validator_patches "alpha\n\nExtra\n" (replacePatchReport "SUMMARY" "Extra") =
      .ok "alpha\n\nExtra\n\nExtra\n" ∧
    ("alpha\n\nExtra\n\nExtra\n" : String) ≠ "alpha\n\nExtra\n" := by
  decide

/-- Claim C6 (amended): a `replace` section patch whose (trimmed) title
does not occur as a heading line appends only the content (preceded by a
blank line) and never the title; consequently a second application —
whose title is still absent — appends the content once more, so applying
the patch twice does *not* equal applying it once. -/
theorem replace_patch_absent_title_appends (t title content : String)
    (ht : pyStrip title ≠ "") (hc : pyStrip content ≠ "")
    (h1 : findSectionB (pyStrip title) t = false)
    (h2 : findSectionB (pyStrip title)
      (pyRstrip t ++ "\n\n" ++ pyStrip content ++ "\n") = false) :
    apply_validator_patches t (replacePatchReport title content) =
      .ok (pyRstrip t ++ "\n\n" ++ pyStrip content ++ "\n") ∧
    apply_validator_patches (pyRstrip t ++ "\n\n" ++ pyStrip content ++ "\n")
        (replacePatchReport title content) =
      .ok (pyRstrip (pyRstrip t ++ "\n\n" ++ pyStrip content ++ "\n") ++ "\n\n" ++
        pyStrip content ++ "\n") :=
  ⟨apply_replace_patch_absent t title content ht hc h1,
   apply_replace_patch_absent _ title content ht hc h2⟩

/-- Witness for C6 at the concrete patch. -/
theorem replace_patch_absent_title_appends_witness :
    apply_validator_patches "alpha" (replacePatchReport "SUMMARY" "Extra") =
      .ok (pyRstrip "alpha" ++ "\n\n" ++ pyStrip "Extra" ++ "\n") ∧
    apply_validator_patches (pyRstrip "alpha" ++ "\n\n" ++ pyStrip "Extra" ++ "\n")
        (replacePatchReport "SUMMARY" "Extra") =
      .ok (pyRstrip (pyRstrip "alpha" ++ "\n\n" ++ pyStrip "Extra" ++ "\n") ++ "\n\n" ++
        pyStrip "Extra" ++ "\n") :=
  replace_patch_absent_title_appends "alpha" "SUMMARY" "Extra" (by decide) (by decide)
    (by decide) (by decide)

theorem pyStripJ_or_okay (v : JValue) (d : String) (h : valOkay v) :
    ∃ s2, pyStripJ (pyOr v (.str d)) = .ok s2 := by
  rcases h with h | ⟨s, rfl⟩
  · exact ⟨pyStrip d, by simp [pyOr, h, pyStripJ]⟩
  · by_cases hs : s = ""
    · subst hs
      exact ⟨pyStrip d, by simp [pyOr, jTruthy, pyStripJ]⟩
    · exact ⟨pyStrip s, by simp [pyOr, jTruthy, hs, pyStripJ]⟩

theorem pyStripLowerJ_or_okay (v : JValue) (d : String) (h : valOkay v) :
    ∃ s2, pyStripLowerJ (pyOr v (.str d)) = .ok s2 := by
  rcases h with h | ⟨s, rfl⟩
  · exact ⟨pyLower (pyStrip d), by simp [pyOr, h, pyStripLowerJ]⟩
  · by_cases hs : s = ""
    · subst hs
      exact ⟨pyLower (pyStrip d), by simp [pyOr, jTruthy, pyStripLowerJ]⟩
    · exact ⟨pyLower (pyStrip s), by simp [pyOr, jTruthy, hs, pyStripLowerJ]⟩

theorem mem_of_dropWhile {α : Type} (p : α → Bool) :
    ∀ (l : List α) (a : α), a ∈ l.dropWhile p → a ∈ l := by
  intro l
  induction l with
  | nil =>
    intro a h
    exact h
  | cons x xs ih =>
    intro a h
    rw [List.dropWhile_cons] at h
    by_cases hx : p x = true
    · rw [if_pos hx] at h
      exact List.mem_cons_of_mem x (ih a h)
    · rw [if_neg hx] at h
      exact h

theorem mem_pyStrip (s : String) (c : Char) (h : c ∈ (pyStrip s).data) : c ∈ s.data := by
  have h1 : c ∈ ((s.data.dropWhile isPySpace).reverse.dropWhile isPySpace).reverse := h
  rw [List.mem_reverse] at h1
  have h2 := mem_of_dropWhile isPySpace _ c h1
  rw [List.mem_reverse] at h2
  exact mem_of_dropWhile isPySpace _ c h2

theorem consTok_ok (tk : ReplTok) (toks : List ReplTok) :
    consTok tk (.ok toks) = .ok (tk :: toks) := rfl

theorem compileReplGo_no_backslash :
    ∀ (fuel : Nat) (l : List Char), l.length < fuel → (∀ c ∈ l, c ≠ '\\') →
      compileReplGo fuel l = .ok (l.map .lit) := by
  intro fuel
  induction fuel with
  | zero =>
    intro l hl
    exact absurd hl (Nat.not_lt_zero _)
  | succ n ih =>
    intro l hl hnb
    cases l with
    | nil => rfl
    | cons c rest =>
      have hc : c ≠ '\\' := hnb c (by simp)
      have hrest : compileReplGo n rest = .ok (rest.map .lit) := by
        refine ih rest ?_ (fun a ha => hnb a (List.mem_cons_of_mem c ha))
        simp only [List.length_cons] at hl
        omega
      simp only [compileReplGo]
      rw [if_neg hc, hrest, consTok_ok]
      rfl

theorem compileRepl_no_backslash (l : List Char) (h : ∀ c ∈ l, c ≠ '\\') :
    compileRepl l = .ok (l.map .lit) :=
  compileReplGo_no_backslash (l.length + 1) l (Nat.lt_succ_self _) h

theorem pyStripJ_or_okay_nb (v : JValue) (h : valOkay v)
    (hb : ∀ s, v = .str s → ∀ c ∈ s.data, c ≠ '\\') :
    ∃ s2, pyStripJ (pyOr v (.str "")) = .ok s2 ∧ ∀ c ∈ s2.data, c ≠ '\\' := by
  rcases h with h | ⟨s, rfl⟩
  · exact ⟨pyStrip "", by simp [pyOr, h, pyStripJ], by decide⟩
  · by_cases hs : s = ""
    · subst hs
      exact ⟨pyStrip "", by simp [pyOr, jTruthy, pyStripJ], by decide⟩
    · refine ⟨pyStrip s, by simp [pyOr, jTruthy, hs, pyStripJ], ?_⟩
      intro c hc
      exact hb s rfl c (mem_pyStrip s c hc)

theorem applyInlineFix_ok (t : String) (fx : JValue) (h : fixEntryOkay fx) :
    ∃ out, applyInlineFix t fx = .ok out := by
  rcases h with ⟨kvs, rfl, hf, hr⟩
  obtain ⟨f1, hf1⟩ := pyStripJ_or_okay _ "" hf
  obtain ⟨r1, hr1⟩ := pyStripJ_or_okay _ "" hr
  simp only [applyInlineFix, pyDotGet, hf1, hr1]
  by_cases hcond : f1 ≠ "" ∧ r1 ≠ "" ∧ pyInStr f1 t = true
  · exact ⟨pyReplace t f1 r1, by simp [hcond]⟩
  · exact ⟨t, by simp [hcond]⟩

theorem applySectionPatch_ok (t : String) (p : JValue) (h : patchEntryOkay p) :
    ∃ out, applySectionPatch t p = .ok out := by
  rcases h with ⟨kvs, rfl, hT, hA, hC⟩
  obtain ⟨t1, ht1⟩ := pyStripJ_or_okay _ "" hT
  obtain ⟨a1, ha1⟩ := pyStripLowerJ_or_okay _ "append" hA
  obtain ⟨c1, hc1, hnb⟩ := pyStripJ_or_okay_nb _ hC.1 hC.2
  simp only [applySectionPatch, pyDotGet, ht1, ha1, hc1]
  by_cases h1 : t1 = "" ∨ c1 = ""
  · exact ⟨t, by simp [h1]⟩
  · by_cases h2 : a1 = "insert" ∨ a1 = "replace"
    · by_cases h3 : findSectionB t1 t = true
      · have hcr : compileRepl (c1.data ++ ['\n']) = .ok ((c1.data ++ ['\n']).map .lit) := by
          refine compileRepl_no_backslash _ ?_
          intro c hcm
          rcases List.mem_append.1 hcm with hcm | hcm
          · exact hnb c hcm
          · simp only [List.mem_singleton] at hcm
            subst hcm
            decide
        exact ⟨String.mk (sectionSubAll t1.data ((c1.data ++ ['\n']).map .lit) t.data),
          by simp [h1, h2, h3, hcr]⟩
      · have h3f : findSectionB t1 t = false := by
          cases hb : findSectionB t1 t
          · rfl
          · exact absurd hb h3
        exact ⟨pyRstrip t ++ "\n\n" ++ c1 ++ "\n", by simp [h1, h2, h3f]⟩
    · cases hm : sectionSearchFrom t.data t1.data 0 with
      | some pe =>
        obtain ⟨i, e⟩ := pe
        by_cases h3 : findSectionB t1 t = true
        · exact ⟨String.mk (t.data.take i) ++
            (pyRstrip (String.mk ((t.data.take e).drop i)) ++ "\n") ++ "\n" ++
            pyStrip c1 ++ "\n" ++ String.mk (t.data.drop e),
            by simp [h1, h2, h3, hm]⟩
        · have h3f : findSectionB t1 t = false := by
            cases hb : findSectionB t1 t
            · rfl
            · exact absurd hb h3
          exact ⟨pyRstrip t ++ "\n\n" ++ c1 ++ "\n", by simp [h1, h2, h3f, hm]⟩
      | none =>
        have h3f : findSectionB t1 t = false := by
          simp [findSectionB, hm]
        exact ⟨pyRstrip t ++ "\n\n" ++ c1 ++ "\n", by simp [h1, h2, h3f, hm]⟩

theorem foldlM_ok_of_all {α : Type} (f : String → α → Except PyErr String) :
    ∀ (l : List α), (∀ a ∈ l, ∀ t, ∃ out, f t a = .ok out) →
      ∀ t, ∃ out, List.foldlM f t l = .ok out := by
  intro l
  induction l with
  | nil =>
    intro _ t
    exact ⟨t, rfl⟩
  | cons a rest ih =>
    intro h t
    obtain ⟨out1, hout1⟩ := h a (by simp) t
    obtain ⟨out2, hout2⟩ := ih (fun b hb t2 => h b (by simp [hb]) t2) out1
    refine ⟨out2, ?_⟩
    have hstep : List.foldlM f t (a :: rest) =
        f t a >>= fun s2 => List.foldlM f s2 rest := rfl
    rw [hstep, hout1]
    exact hout2

theorem exceptBind_ok {α β : Type} (a : α) (k : α → Except PyErr β) :
    Except.bind (Except.ok a) k = k a := rfl

theorem exceptBind_err {α β : Type} (e : PyErr) (k : α → Except PyErr β) :
    Except.bind (Except.error e : Except PyErr α) k = (Except.error e : Except PyErr β) := rfl

theorem apply_unfold_bind (text : String) (report : JValue) :
    apply_validator_patches text report =
      Except.bind (pyGetDefault report "inline_fixes" (.arr [])) (fun iv =>
        Except.bind (pyIter iv) (fun fxs =>
          Except.bind (List.foldlM applyInlineFix text fxs) (fun t1 =>
            Except.bind (pyGetDefault report "section_patches" (.arr [])) (fun pv =>
              sectionsStage t1 pv)))) := rfl

theorem apply_validator_patches_ok (text : String) (report : JValue)
    (h : reportPatchesOkay report) :
    ∃ out, apply_validator_patches text report = .ok out := by
  rcases h with ⟨kvs, rfl, ⟨fs, hfs, hfall⟩, ⟨ps, hps, hpall⟩⟩
  obtain ⟨t1, ht1⟩ :=
    foldlM_ok_of_all applyInlineFix fs (fun fx hfx t => applyInlineFix_ok t fx (hfall fx hfx))
      text
  rw [apply_unfold_bind,
    show pyGetDefault (.obj kvs) "inline_fixes" (.arr []) =
      .ok ((objGet kvs "inline_fixes").getD (.arr [])) from rfl, hfs]
  simp only [exceptBind_ok]
  rw [show pyIter (.arr fs) = .ok fs from rfl]
  simp only [exceptBind_ok]
  rw [ht1]
  simp only [exceptBind_ok]
  rw [show pyGetDefault (.obj kvs) "section_patches" (.arr []) =
      .ok ((objGet kvs "section_patches").getD (.arr [])) from rfl, hps]
  simp only [exceptBind_ok]
  cases ps with
  | nil => exact ⟨t1, rfl⟩
  | cons p rest =>
    obtain ⟨out, hout⟩ :=
      foldlM_ok_of_all applySectionPatch (p :: rest)
        (fun q hq t => applySectionPatch_ok t q (hpall q hq)) t1
    refine ⟨out, ?_⟩
    rw [show sectionsStage t1 (.arr (p :: rest)) =
        List.foldlM applySectionPatch t1 (p :: rest) from rfl]
    exact hout

theorem applySectionPatch_empty_skip (t titleS actionS contentS : String)
    (h : pyStrip titleS = "" ∨ pyStrip contentS = "") :
    applySectionPatch t (.obj [("title", .str titleS), ("action", .str actionS),
      ("content", .str contentS)]) = .ok t := by
  obtain ⟨a1, ha1⟩ := pyStripLowerJ_or_okay (.str actionS) "append" (Or.inr ⟨_, rfl⟩)
  simp [applySectionPatch, pyDotGet, objGet, pyStripJ_or_emptyStr, ha1, h]

theorem applySectionPatch_missing_skip (t : String) :
    applySectionPatch t (.obj []) = .ok t := rfl

theorem foldlM_skip (f : String → JValue → Except PyErr String) (bad : JValue)
    (hbad : ∀ t, f t bad = .ok t) :
    ∀ (ps1 ps2 : List JValue) (t : String),
      List.foldlM f t (ps1 ++ bad :: ps2) = List.foldlM f t (ps1 ++ ps2) := by
  intro ps1
  induction ps1 with
  | nil =>
    intro ps2 t
    have hstep : List.foldlM f t (bad :: ps2) =
        f t bad >>= fun s2 => List.foldlM f s2 ps2 := rfl
    rw [List.nil_append, List.nil_append, hstep, hbad t]
    rfl
  | cons a rest ih =>
    intro ps2 t
    have hstep1 : List.foldlM f t (a :: (rest ++ bad :: ps2)) =
        f t a >>= fun s2 => List.foldlM f s2 (rest ++ bad :: ps2) := rfl
    have hstep2 : List.foldlM f t (a :: (rest ++ ps2)) =
        f t a >>= fun s2 => List.foldlM f s2 (rest ++ ps2) := rfl
    rw [List.cons_append, List.cons_append, hstep1, hstep2]
    cases hfa : f t a with
    | error e => rfl
    | ok t2 => exact ih ps2 t2

theorem sections_skip (t1 : String) (ps1 ps2 : List JValue) (bad : JValue)
    (hbad : ∀ t, applySectionPatch t bad = .ok t) :
    sectionsStage t1 (.arr (ps1 ++ bad :: ps2)) = sectionsStage t1 (.arr (ps1 ++ ps2)) := by
  cases hps : ps1 ++ ps2 with
  | nil =>
    obtain ⟨rfl, rfl⟩ := List.append_eq_nil.1 hps
    have hstep : List.foldlM applySectionPatch t1 [bad] =
        applySectionPatch t1 bad >>= fun s2 => List.foldlM applySectionPatch s2 [] := rfl
    have hfold : List.foldlM applySectionPatch t1 [bad] = .ok t1 := by
      rw [hstep, hbad t1]
      rfl
    rw [show sectionsStage t1 (.arr ([] ++ bad :: [])) =
        List.foldlM applySectionPatch t1 [bad] from rfl, hfold]
    rfl
  | cons q qs =>
    have hfold := foldlM_skip applySectionPatch bad hbad ps1 ps2 t1
    rw [hps] at hfold
    have h1 : sectionsStage t1 (.arr (ps1 ++ bad :: ps2)) =
        List.foldlM applySectionPatch t1 (ps1 ++ bad :: ps2) := by
      cases ps1 <;> rfl
    have h2 : sectionsStage t1 (.arr (q :: qs)) =
        List.foldlM applySectionPatch t1 (q :: qs) := rfl
    rw [h1, h2]
    exact hfold

theorem apply_patches_skip_equal (text : String) (fixesVal : JValue)
    (ps1 ps2 : List JValue) (bad : JValue)
    (hbad : ∀ t, applySectionPatch t bad = .ok t) :
    apply_validator_patches text (.obj [("inline_fixes", fixesVal),
      ("section_patches", .arr (ps1 ++ bad :: ps2))]) =
    apply_validator_patches text (.obj [("inline_fixes", fixesVal),
      ("section_patches", .arr (ps1 ++ ps2))]) := by
  rw [apply_unfold_bind, apply_unfold_bind,
    show pyGetDefault (.obj [("inline_fixes", fixesVal),
        ("section_patches", .arr (ps1 ++ bad :: ps2))]) "inline_fixes" (.arr []) =
      .ok fixesVal from rfl,
    show pyGetDefault (.obj [("inline_fixes", fixesVal),
        ("section_patches", .arr (ps1 ++ ps2))]) "inline_fixes" (.arr []) =
      .ok fixesVal from rfl]
  simp only [exceptBind_ok]
  cases hit : pyIter fixesVal with
  | error e => simp only [exceptBind_err]
  | ok fxs =>
    simp only [exceptBind_ok]
    cases hfold : List.foldlM applyInlineFix text fxs with
    | error e => simp only [exceptBind_err]
    | ok t1 =>
      simp only [exceptBind_ok,
        show pyGetDefault (.obj [("inline_fixes", fixesVal),
            ("section_patches", .arr (ps1 ++ bad :: ps2))]) "section_patches" (.arr []) =
          .ok (.arr (ps1 ++ bad :: ps2)) from rfl,
        show pyGetDefault (.obj [("inline_fixes", fixesVal),
            ("section_patches", .arr (ps1 ++ ps2))]) "section_patches" (.arr []) =
          .ok (.arr (ps1 ++ ps2)) from rfl]
      exact sections_skip t1 ps1 ps2 bad hbad

/-- Claim C8, counterexample: on the report `{"inline_fixes": 0}` the
code executes `for fx in 0` and raises `TypeError` — the function is not
total on arbitrary report contents. -/
theorem apply_patches_raises_on_non_iterable_fixes :
    apply_validator_patches "x" (.obj [("inline_fixes", .num 0)]) = .error .typeError := by
  decide

/-- Claim C8 (amended): `apply_validator_patches` returns normally on
every report whose patch collections are well-typed and template-safe —
arrays of dicts whose `find`/`replace`/`title`/`action` values are
strings, falsy, or absent, and whose `content` values are falsy,
absent, or strings without a backslash; and a section patch whose title
or content is empty after trimming, or missing entirely, is a no-op for
that patch: removing it from the patch list does not change the result.
On other reports the function raises: `TypeError` for a numeric
`inline_fixes` (the separate counterexample), and `re.error` for a
backslashed content such as `"\1"` on a present title with action
`replace`, since `re.sub` interprets the replacement as a template. -/
theorem apply_patches_wellformed_total_and_malformed_skipped :
    (∀ (text : String) (report : JValue), reportPatchesOkay report →
      ∃ out, apply_validator_patches text report = .ok out) ∧
    (∀ (text : String) (fixesVal : JValue) (ps1 ps2 : List JValue)
        (titleS actionS contentS : String),
      pyStrip titleS = "" ∨ pyStrip contentS = "" →
      apply_validator_patches text (.obj [("inline_fixes", fixesVal),
        ("section_patches", .arr (ps1 ++ (JValue.obj [("title", .str titleS),
          ("action", .str actionS), ("content", .str contentS)]) :: ps2))]) =
      apply_validator_patches text (.obj [("inline_fixes", fixesVal),
        ("section_patches", .arr (ps1 ++ ps2))])) ∧
    (∀ (text : String) (fixesVal : JValue) (ps1 ps2 : List JValue),
      apply_validator_patches text (.obj [("inline_fixes", fixesVal),
        ("section_patches", .arr (ps1 ++ JValue.obj [] :: ps2))]) =
      apply_validator_patches text (.obj [("inline_fixes", fixesVal),
        ("section_patches", .arr (ps1 ++ ps2))])) ∧
    apply_validator_patches "T\nbody" (replacePatchReport "T" "\\1") =
      .error .reError :=
  ⟨apply_validator_patches_ok,
   fun text fv ps1 ps2 tS aS cS h =>
     apply_patches_skip_equal text fv ps1 ps2 _
       (fun t => applySectionPatch_empty_skip t tS aS cS h),
   fun text fv ps1 ps2 =>
     apply_patches_skip_equal text fv ps1 ps2 _
       (fun t => applySectionPatch_missing_skip t),
   by decide⟩

/-- Witness for C8 at concrete inputs: a report holding one actual
inline fix and one actual section patch for the totality half, and an
empty-title patch for the skip half. -/
theorem apply_patches_wellformed_total_and_malformed_skipped_witness :
    (∃ out, apply_validator_patches "body"
      (.obj [("inline_fixes", .arr [.obj [("find", .str "o"), ("replace", .str "0")]]),
        ("section_patches", .arr [.obj [("title", .str "T"), ("action", .str "append"),
          ("content", .str "x")]])]) = .ok out) ∧
    apply_validator_patches "body" (.obj [("inline_fixes", .arr []),
        ("section_patches", .arr ([] ++ (JValue.obj [("title", .str " "),
          ("action", .str "append"), ("content", .str "x")]) :: []))]) =
      apply_validator_patches "body" (.obj [("inline_fixes", .arr []),
        ("section_patches", .arr ([] ++ []))]) :=
  ⟨apply_patches_wellformed_total_and_malformed_skipped.1 "body" _
     ⟨_, rfl,
       ⟨[.obj [("find", .str "o"), ("replace", .str "0")]], rfl, by
         intro fx hfx
         rw [List.mem_singleton] at hfx
         subst hfx
         exact ⟨_, rfl, Or.inr ⟨"o", rfl⟩, Or.inr ⟨"0", rfl⟩⟩⟩,
       ⟨[.obj [("title", .str "T"), ("action", .str "append"), ("content", .str "x")]], rfl, by
         intro p hp
         rw [List.mem_singleton] at hp
         subst hp
         refine ⟨_, rfl, Or.inr ⟨"T", rfl⟩, Or.inr ⟨"append", rfl⟩, Or.inr ⟨"x", rfl⟩, ?_⟩
         intro s hs
         injection hs with h2
         subst h2
         decide⟩⟩,
   apply_patches_wellformed_total_and_malformed_skipped.2.1 "body" (.arr []) [] []
     " " "append" "x" (Or.inl (by decide))⟩

set_option maxRecDepth 8000 in
/-- Witness for C5 at the concrete short-candidate run. -/
theorem short_candidate_rejected_and_loop_exits_witness :
    iterRefineLoop (fun _ _ => (5 : ℚ)) (fun _ _ => tShort) 10 3 0 0 tLong =
      { text := tLong, score := 5, nValidate := 2 } :=
  short_candidate_rejected_and_loop_exits (fun _ _ => (5 : ℚ)) (fun _ _ => tShort) 10
    2 0 0 tLong (by decide) (by decide) (by decide) (by decide)

end AstroRabbit
